import Mathlib

/-!
The product and community route handlers of village_find_backend

A shallow embedding of the handlers of `src/router/product.router.js` and
`src/router/community.router.js`.

* JavaScript / BSON values are the type `Val`; a JavaScript object or a stored
  document is an association list `Obj` (key order kept, first binding wins).
* `Val.undefined` is both the JavaScript `undefined` and the aggregation
  framework's "missing" value.
* Numbers are integers (fractions and NaN are not represented).
* A handler that throws is modelled with `Option` / `Except`.
-/

namespace VillageFind

/-! ## Values -/

/-- JavaScript / BSON values. `oid` is an ObjectId, carried as the hexadecimal text
that `toString()` returns for it. -/
inductive Val where
  | undefined
  | null
  | bool (b : Bool)
  | num (n : Int)
  | str (s : String)
  | oid (hex : String)
  | arr (items : List Val)
  | obj (fields : List (String × Val))
  deriving Repr, Inhabited

/-- A JavaScript object / a document: its own enumerable fields in order. -/
abbrev Obj := List (String × Val)

mutual
/-- Value equality (BSON comparison for equality; documents compare field by field
in order). -/
def Val.beq : Val → Val → Bool
  | .undefined, .undefined => true
  | .null, .null => true
  | .bool a, .bool b => a == b
  | .num a, .num b => a == b
  | .str a, .str b => a == b
  | .oid a, .oid b => a == b
  | .arr a, .arr b => Val.beqList a b
  | .obj a, .obj b => Val.beqFields a b
  | _, _ => false
/-- Equality of arrays, element by element. -/
def Val.beqList : List Val → List Val → Bool
  | [], [] => true
  | x :: xs, y :: ys => Val.beq x y && Val.beqList xs ys
  | _, _ => false
/-- Equality of documents, field by field. -/
def Val.beqFields : List (String × Val) → List (String × Val) → Bool
  | [], [] => true
  | (k, x) :: xs, (l, y) :: ys => k == l && Val.beq x y && Val.beqFields xs ys
  | _, _ => false
end

/-- JavaScript truthiness (`if (v)`, `!!v`, `v || d`). -/
def Val.truthy : Val → Bool
  | .undefined => false
  | .null => false
  | .bool b => b
  | .num n => n != 0
  | .str s => s != ""
  | .oid _ => true
  | .arr _ => true
  | .obj _ => true

/-- Property read `o.k` (JavaScript) or field path `"$k"` (aggregation): the first
binding of `k`, `undefined` / missing when there is none. -/
def Obj.get (o : Obj) (k : String) : Val :=
  (o.lookup k).getD Val.undefined

/-- Property read `v.k` on any value: only objects carry fields here. -/
def Val.field (v : Val) (k : String) : Val :=
  match v with
  | .obj fs => Obj.get fs k
  | _ => Val.undefined

/-- Whether the object has an own field `k`. -/
def Obj.has (o : Obj) (k : String) : Bool :=
  o.any (fun p => p.1 == k)

/-- Assignment `o.k = v`: replaces the binding in place, or adds it at the end. -/
def Obj.set (o : Obj) (k : String) (v : Val) : Obj :=
  if Obj.has o k then o.map (fun p => if p.1 == k then (k, v) else p) else o ++ [(k, v)]

/-- Removal of the field `k`. -/
def Obj.erase (o : Obj) (k : String) : Obj :=
  o.filter (fun p => p.1 != k)

/-- Object spread `{ ...a, ...b }` and `$mergeObjects: [a, b]`: the fields of `a` in
order, each overridden by the binding of `b` when `b` has one, then the fields of `b`
that `a` lacks. -/
def Obj.merge (a b : Obj) : Obj :=
  a.map (fun p => (p.1, (b.lookup p.1).getD p.2)) ++ b.filter (fun p => !Obj.has a p.1)

/-! ## Aggregation expressions used by `GET /products/public` -/

/-- Why an aggregation fails. -/
inductive AggError where
  | inNeedsArray
  | filterNeedsArray
  | firstNeedsArray
  deriving Repr, DecidableEq

/-- The operator `$in: [x, a]`: an error unless `a` is an array. -/
def exprIn (x a : Val) : Except AggError Bool :=
  match a with
  | .arr items => .ok (items.any (fun y => Val.beq x y))
  | _ => .error AggError.inNeedsArray

/-- The operator `$ne: [a, b]`. A missing field is not equal to `null`. -/
def exprNe (a b : Val) : Bool :=
  !(Val.beq a b)

/-- The operator `$filter` with `cond: { $ne: ["$$inventory.image", null] }`:
`null` for a null or missing input, an error for any other non-array. -/
def exprFilterImage (input : Val) : Except AggError Val :=
  match input with
  | .arr items => .ok (.arr (items.filter (fun inv => exprNe (Val.field inv "image") Val.null)))
  | .null => .ok Val.null
  | .undefined => .ok Val.null
  | _ => .error AggError.filterNeedsArray

/-- The array operator `$first`: missing for an empty array, `null` for a null or
missing operand, an error for any other non-array. -/
def exprFirst (a : Val) : Except AggError Val :=
  match a with
  | .arr [] => .ok Val.undefined
  | .arr (x :: _) => .ok x
  | .null => .ok Val.null
  | .undefined => .ok Val.null
  | _ => .error AggError.firstNeedsArray

/-- One field of an `$addFields` stage: a missing value leaves the document without
the field. -/
def addField (doc : Obj) (k : String) (v : Val) : Obj :=
  match v with
  | .undefined => Obj.erase doc k
  | _ => Obj.set doc k v

/-- Whether a value is there at all (not missing). -/
def Val.present : Val → Bool
  | .undefined => false
  | _ => true

/-- An object-literal expression: fields whose value is missing are left out. -/
def objLiteral (fields : Obj) : Obj :=
  fields.filter (fun p => p.2.present)

/-- Values of a `$lookup` key: the elements of an array, `null` for a missing field. -/
def lookupKeys (v : Val) : List Val :=
  match v with
  | .arr items => items
  | .undefined => [Val.null]
  | _ => [v]

/-- The stage `$lookup: { from, localField, foreignField, as }` on one document. -/
def lookupStage (source : List Obj) (localField foreignField as : String) (doc : Obj) : Obj :=
  Obj.set doc as (.arr ((source.filter (fun f =>
    (lookupKeys (Obj.get doc localField)).any (fun a =>
      (lookupKeys (Obj.get f foreignField)).any (fun b => Val.beq a b)))).map Val.obj))

/-- The query condition `{ $ne: null }` on one field value: a missing field, `null` and an
array holding `null` fail it. -/
def queryNeNull (v : Val) : Bool :=
  match v with
  | .undefined => false
  | .null => false
  | .arr items => !(items.any (fun x => Val.beq x Val.null))
  | _ => true

/-- The optional first stage `$match: { subscription: { $ne: null } }` of
`?type=subscription` (lines 38-40) on one product. -/
def typeStage (type : Option String) (product : Obj) : Bool :=
  if type == some "subscription" then queryNeNull (Obj.get product "subscription") else true

/-- The inventory that the `$addFields` stage picks from the joined inventories: the
`$first` of the `$filter` with `cond: { $ne: ["$$inventory.image", null] }`. -/
def pickedInventory (inventories : List Val) : Val :=
  (inventories.find? (fun inv => exprNe (Val.field inv "image") Val.null)).getD Val.undefined

/-- The two `$lookup` stages of the public listing (lines 41-56). -/
def joinPublic (inventories vendors : List Obj) (product : Obj) : Obj :=
  lookupStage vendors "vendor" "_id" "vendor"
    (lookupStage inventories "_id" "productId" "inventories" product)

/-- The stage `$addFields: { inventory, vendor }` (lines 68-85). Both expressions read
the incoming document. -/
def representativeStage (doc : Obj) : Except AggError Obj := do
  let kept ← exprFilterImage (Obj.get doc "inventories")
  let inventory ← exprFirst kept
  let vendor ← exprFirst (Obj.get doc "vendor")
  pure (addField (addField doc "inventory" inventory) "vendor" vendor)

/-- The expression of the `tags` field (lines 88-112). -/
def tagsExpr (doc : Obj) : Except AggError Val := do
  if (← exprIn (.str "Local Subscriptions") (Obj.get doc "deliveryTypes")) then
    pure (.arr [.str "Subscription", .str "Near By"])
  else if (← exprIn (.str "Near By") (Obj.get doc "deliveryTypes")) then
    pure (.arr [.str "Near By"])
  else if exprNe (Obj.get doc "subscription") Val.null then
    pure (.arr [.str "Subscription"])
  else
    pure (.arr [])

/-- The stage `$addFields: { tags }` (lines 86-114). -/
def tagsStage (doc : Obj) : Except AggError Obj := do
  let tags ← tagsExpr doc
  pure (addField doc "tags" tags)

/-- The default record of the `$replaceRoot` stage (lines 119-127). -/
def publicDefaults : Obj :=
  [("_id", .str ""), ("category", .str ""), ("name", .str ""), ("shopName", .str ""),
   ("price", .num 0), ("image", .str ""), ("tags", .arr [])]

/-- The stage `$replaceRoot` with `$mergeObjects` (lines 115-140). -/
def replaceRootStage (doc : Obj) : Obj :=
  Obj.merge publicDefaults (objLiteral
    [("_id", Obj.get doc "_id"),
     ("category", Obj.get doc "category"),
     ("name", Obj.get doc "name"),
     ("shopName", Val.field (Obj.get doc "vendor") "shopName"),
     ("price", Val.field (Obj.get doc "inventory") "price"),
     ("image", Val.field (Obj.get doc "inventory") "image"),
     ("tags", Obj.get doc "tags")])

/-- What the public listing makes of one joined document: the stages of lines 68-140
in order. -/
def publicRecord (doc : Obj) : Except AggError Obj := do
  let d1 ← representativeStage doc
  let d2 ← tagsStage d1
  pure (replaceRootStage d2)

/-! ## The filter of `GET /products/public` (lines 12-35) -/

/-- Query string of `GET /products/public`: each parameter is absent or a string. -/
structure PublicQuery where
  community : Option String
  vendor : Option String
  type : Option String
  search : Option String
  category : Option String
  sort : Option String
  minPrice : Option String
  maxPrice : Option String
  featured : Option String
  deriving Repr

/-- The query with no parameter at all. -/
def emptyQuery : PublicQuery :=
  ⟨none, none, none, none, none, none, none, none, none⟩

/-- A query parameter as a JavaScript value. -/
def param (p : Option String) : Val :=
  match p with
  | some s => .str s
  | none => .undefined

/-- The parameter when `if (p)` holds: a non-empty string. -/
def given (p : Option String) : Option String :=
  match p with
  | some s => if (param p).truthy then some s else none
  | none => none

/-- The expression `search || ""`. -/
def orEmpty (p : Option String) : String :=
  match given p with
  | some s => s
  | none => ""

/-- A condition on one field of a `$match` query. `eq` is built with strings and
ObjectIds only; a bound of `gte` / `lte` is `none` when `Number(..)` is not a number. -/
inductive Cond where
  | regex (pattern options : String)
  | eq (v : Val)
  | gte (bound : Option Int)
  | lte (bound : Option Int)
  deriving Repr

/-- A field path such as `vendor.shopName`, split at the dots. -/
abbrev Path := List String

/-- The filter object: the clauses under `$or`, and the other keys in order. -/
structure Filter where
  anyOf : List (Path × Cond)
  fields : List (Path × Cond)
  deriving Repr

/-- Assignment `filter[key] = cond` on the keys other than `$or`: an existing key is
overwritten. -/
def Filter.assign (f : Filter) (key : Path) (c : Cond) : Filter :=
  if f.fields.any (fun p => p.1 == key) then
    { f with fields := f.fields.map (fun p => if p.1 == key then (key, c) else p) }
  else
    { f with fields := f.fields ++ [(key, c)] }

/-- The filter built at lines 25-35. `mkId` is the ObjectId constructor (`none` when it
throws, which aborts the handler); `toNumber` is `Number(..)`. -/
def publicFilter (mkId : String → Option String) (toNumber : String → Option Int)
    (q : PublicQuery) : Option Filter := do
  let f0 : Filter :=
    { anyOf := [(["name"], Cond.regex (orEmpty q.search) "i"),
                (["vendor", "shopName"], Cond.regex (orEmpty q.search) "i")],
      fields := [] }
  let f1 ← match given q.community with
    | some c => (mkId c).map (fun h => f0.assign ["vendor", "community"] (Cond.eq (.oid h)))
    | none => some f0
  let f2 ← match given q.vendor with
    | some v => (mkId v).map (fun h => f1.assign ["vendor", "_id"] (Cond.eq (.oid h)))
    | none => some f1
  let f3 := match given q.category with
    | some c => f2.assign ["category"] (Cond.eq (.str c))
    | none => f2
  let f4 := match given q.minPrice with
    | some m => f3.assign ["inventories", "price"] (Cond.gte (toNumber m))
    | none => f3
  let f5 := match given q.maxPrice with
    | some m => f4.assign ["inventories", "price"] (Cond.lte (toNumber m))
    | none => f4
  pure f5

/-- One step of a field path: the field of a document, or of each document of an
array. -/
def pathStep (k : String) (v : Val) : List Val :=
  match v with
  | .obj fs => (fs.lookup k).toList
  | .arr items => items.filterMap (fun x => match x with
      | .obj fs => fs.lookup k
      | _ => none)
  | _ => []

/-- The values a field path reaches in a document. -/
def valuesAt : Path → List Val → List Val
  | [], vs => vs
  | k :: ks, vs => valuesAt ks (vs.flatMap (pathStep k))

/-- A reached value and, when it is an array, its elements. -/
def leafCandidates (v : Val) : List Val :=
  match v with
  | .arr items => v :: items
  | _ => [v]

/-- Whether one value satisfies a condition. `rx pattern options subject` is the regular
expression engine of the store. Regular expressions match strings only, bounds compare
numbers only. -/
def condHolds (rx : String → String → String → Bool) (c : Cond) (v : Val) : Bool :=
  match c, v with
  | .regex p o, .str s => rx p o s
  | .eq a, w => Val.beq a w
  | .gte (some b), .num n => decide (b ≤ n)
  | .lte (some b), .num n => decide (n ≤ b)
  | _, _ => false

/-- Whether a document satisfies `{ path: cond }`. -/
def matchField (rx : String → String → String → Bool) (doc : Obj) (path : Path) (c : Cond) :
    Bool :=
  ((valuesAt path [.obj doc]).flatMap leafCandidates).any (condHolds rx c)

/-- The `$or` part of the filter: the name / vendor.shopName search. -/
def searchMatches (rx : String → String → String → Bool) (f : Filter) (doc : Obj) : Bool :=
  f.anyOf.any (fun p => matchField rx doc p.1 p.2)

/-- The stage `$match: filter` (lines 57-59) on one joined document. -/
def matchFilter (rx : String → String → String → Bool) (f : Filter) (doc : Obj) : Bool :=
  searchMatches rx f doc && f.fields.all (fun p => matchField rx doc p.1 p.2)

/-- The price condition a filter carries, if any. -/
def priceCond (f : Filter) : Option Cond :=
  f.fields.lookup ["inventories", "price"]

/-- Value of a run of decimal digits. -/
def digitsValue : List Char → Option Nat
  | [] => some 0
  | c :: cs =>
    if c.isDigit then (digitsValue cs).map (fun r => (c.toNat - 48) * 10 ^ cs.length + r)
    else none

/-- The conversion `Number(s)` on decimal integer literals; other strings are not numbers
of this development. -/
def decimalNumber (s : String) : Option Int :=
  match s.toList with
  | [] => none
  | '-' :: ds => if ds.isEmpty then none else (digitsValue ds).map (fun n => - (n : Int))
  | ds => (digitsValue ds).map (fun n => (n : Int))

/-- Whether `p` begins `s`. -/
def beginsWith : List Char → List Char → Bool
  | [], _ => true
  | _ :: _, [] => false
  | a :: p, b :: s => a == b && beginsWith p s

/-- Whether `p` occurs in `s`. -/
def occursIn (p : List Char) : List Char → Bool
  | [] => beginsWith p []
  | c :: s => beginsWith p (c :: s) || occursIn p s

/-- A regular expression engine for patterns without metacharacters: under option `i`
such a pattern matches exactly the strings that contain it, letter case ignored. -/
def substringRegex (pattern _options subject : String) : Bool :=
  occursIn (pattern.toList.map Char.toLower) (subject.toList.map Char.toLower)

/-! ## Responses and single-product fetches -/

/-- The response body `{ status: n }`. -/
def statusOnly (n : Int) : Obj :=
  [("status", .num n)]

/-- The stage `$match: { _id: new ObjectId(id) }` (lines 263-267). -/
def matchId (oid : String) (products : List Obj) : List Obj :=
  products.filter (fun d => Val.beq (Obj.get d "_id") (.oid oid))

/-- One stage that works document by document: every input document yields zero or more
output documents, or the aggregation fails. -/
def runStage (stage : Obj → Except AggError (List Obj)) :
    List Obj → Except AggError (List Obj)
  | [] => .ok []
  | d :: ds =>
    match stage d with
    | .error e => .error e
    | .ok out =>
      match runStage stage ds with
      | .error e => .error e
      | .ok more => .ok (out ++ more)

/-- The stage `$unwind: "$field"` on one document: one output per element of the array,
none for an empty array or a null or missing field, the document itself otherwise. -/
def unwindStage (field : String) (doc : Obj) : Except AggError (List Obj) :=
  match Obj.get doc field with
  | .arr items => .ok (items.map (fun x => Obj.set doc field x))
  | .undefined => .ok []
  | .null => .ok []
  | _ => .ok [doc]

/-- Stages run one after the other. -/
def runStages : List (Obj → Except AggError (List Obj)) → List Obj →
    Except AggError (List Obj)
  | [], docs => .ok docs
  | stage :: later, docs =>
    match runStage stage docs with
    | .error e => .error e
    | .ok out => runStages later out

/-- The aggregation of `GET /products/customer/:id` (lines 262-373): the `$match` on the
id, then `later`, the stages of lines 268-372 (`$lookup`, `$unwind`, `$addFields`,
`$project`, `$replaceRoot`), each of which works document by document. -/
def customerPipeline (products : List Obj) (later : List (Obj → Except AggError (List Obj)))
    (oid : String) : Except AggError (List Obj) :=
  runStages later (matchId oid products)

/-- The handler of `GET /products/customer/:id` (lines 257-383). `mkId` is the ObjectId
constructor, `none` when it throws. -/
def customerDetail (mkId : String → Option String) (products : List Obj)
    (later : List (Obj → Except AggError (List Obj))) (id : String) : Obj :=
  match mkId id with
  | none => statusOnly 500
  | some oid =>
    match customerPipeline products later oid with
    | .error _ => statusOnly 500
    | .ok found =>
      if found.length == 1 then
        [("status", .num 200), ("product", (found.head?.map Val.obj).getD Val.undefined)]
      else statusOnly 404

/-- The query `findById(id)`: the stored product with that id, `null` when there is none. -/
def findById (products : List Obj) (oid : String) : Val :=
  match products.find? (fun d => Val.beq (Obj.get d "_id") (.oid oid)) with
  | some p => .obj p
  | none => .null

/-- The handler of `GET /products/vendor/:id` (lines 247-255), behind the vendor
middleware. An id that cannot be cast makes `findById` throw. -/
def vendorDetail (mkId : String → Option String) (products : List Obj) (id : String) : Obj :=
  match mkId id with
  | none => statusOnly 404
  | some oid => [("status", .num 200), ("product", findById products oid)]

/-! ## Write handlers -/

mutual
/-- The call `v.toString()`: `none` when it throws. `numberText` is the text that
JavaScript gives a number (`Number.prototype.toString`). -/
def Val.toStringJs (numberText : Int → String) : Val → Option String
  | .undefined => none
  | .null => none
  | .bool b => some (if b then "true" else "false")
  | .num n => some (numberText n)
  | .str s => some s
  | .oid h => some h
  | .arr items => Val.joinJs numberText items
  | .obj fs => Val.objectText fs
/-- The text of `Array.prototype.join` with a comma: `null` and `undefined` elements
give the empty text. -/
def Val.joinJs (numberText : Int → String) : List Val → Option String
  | [] => some ""
  | x :: rest =>
    match (match x with
      | .undefined => some ""
      | .null => some ""
      | y => Val.toStringJs numberText y), Val.joinJs numberText rest with
    | some a, some b => some (if rest.isEmpty then a else a ++ "," ++ b)
    | _, _ => none
/-- The text of a plain object: an own field named `toString` is data, not a function,
and calling it throws. -/
def Val.objectText : List (String × Val) → Option String
  | [] => some "[object Object]"
  | (k, _) :: rest => if k == "toString" then none else Val.objectText rest
end

/-- The expression `item._id.toString()`: `none` when it throws. -/
def entryId (numberText : Int → String) (item : Val) : Option String :=
  match item with
  | .obj fs => Val.toStringJs numberText (Obj.get fs "_id")
  | _ => none

/-- The predicate `item._id.toString() === id`. -/
def hasId (numberText : Int → String) (id : Val) (item : Val) : Option Bool :=
  (entryId numberText item).map (fun s => Val.beq (.str s) id)

/-- The method `Array.prototype.find` with a predicate that may throw. -/
def findM (p : Val → Option Bool) : List Val → Option (Option Val)
  | [] => some none
  | x :: xs =>
    match p x with
    | none => none
    | some true => some (some x)
    | some false => findM p xs

/-- The method `Array.prototype.map` with a callback that may throw. -/
def mapThrowing (f : Val → Option Val) : List Val → Option (List Val)
  | [] => some []
  | x :: xs =>
    match f x with
    | none => none
    | some y =>
      match mapThrowing f xs with
      | none => none
      | some ys => some (y :: ys)

/-- The own fields that `{ ...item }` copies. -/
def spreadOf (item : Val) : Obj :=
  match item with
  | .obj fs => fs
  | _ => []

/-- The callback `item => item._id.toString() === id ? { ...item, ...body } : item`. -/
def mergeIfId (numberText : Int → String) (id : Val) (body : Obj) (item : Val) :
    Option Val :=
  match hasId numberText id item with
  | none => none
  | some true => some (.obj (Obj.merge (spreadOf item) body))
  | some false => some item

/-- What a handler did: the document it saved (`none` when it saved nothing) and the
response it sent (`none` when it threw before responding). -/
structure Outcome where
  saved : Option Obj
  response : Option Obj
  deriving Repr

/-- The specification branch of `POST /products/:id/:category` (lines 448-457). -/
def upsertSpecification (numberText : Int → String) (specifications : List Val)
    (spec : Obj) (specId : Val) : Option (List Val) :=
  match findM (hasId numberText specId) specifications with
  | none => none
  | some found =>
    if ((found.map Val.truthy).getD false) then
      mapThrowing (mergeIfId numberText specId spec) specifications
    else some (specifications ++ [.obj spec])

/-- The handler of `POST /products/:id/:category` (lines 442-470). `found` is what
`findById` returned (`none` for `null` or a failed lookup); anything thrown inside the
`try` ends in status 404 with nothing saved. -/
def postCategory (numberText : Int → String) (found : Option Obj) (category : String)
    (body : Obj) (specId : Val) : Outcome :=
  let attempt : Option Obj :=
    match found with
    | none => none
    | some product =>
      if category == "specification" then
        match Obj.get product "specifications" with
        | .arr specifications =>
          (upsertSpecification numberText specifications body specId).map
            (fun l => Obj.set product "specifications" (.arr l))
        | _ => none
      else if category == "customization" then some (Obj.set product "customization" (.obj body))
      else if category == "subscription" then some (Obj.set product "subscription" (.obj body))
      else some product
  match attempt with
  | some product => ⟨some product, some (statusOnly 200)⟩
  | none => ⟨none, some (statusOnly 404)⟩

/-- The statement `if (v) product.k = v` for the body field `k`. -/
def assignIf (product body : Obj) (k : String) : Obj :=
  if (Obj.get body k).truthy then Obj.set product k (Obj.get body k) else product

/-- The handler of `PUT /products/:id` (lines 472-510). `jsonParse` is `JSON.parse`
(`none` when it throws); `file` is the path of the uploaded file, if any. -/
def putProduct (jsonParse : Val → Option Val) (found : Option Obj) (body : Obj)
    (file : Option String) : Outcome :=
  match found with
  | none => ⟨none, some (statusOnly 500)⟩
  | some product =>
    let p1 := assignIf product body "name"
    let parsed : Option Obj :=
      if (Obj.get body "deliveryTypes").truthy then
        (jsonParse (Obj.get body "deliveryTypes")).map (fun v => Obj.set p1 "deliveryTypes" v)
      else some p1
    match parsed with
    | none => ⟨none, some (statusOnly 500)⟩
    | some p2 =>
      let p3 := assignIf p2 body "category"
      let p4 := assignIf p3 body "shortDesc"
      let p5 := assignIf p4 body "longDesc"
      let p6 := assignIf p5 body "disclaimer"
      let p7 := assignIf p6 body "soldByUnit"
      let p8 := assignIf p7 body "tax"
      let p9 := match file with
        | some path => Obj.set p8 "nutrition" (.str path)
        | none => p8
      let p10 := assignIf p9 body "status"
      ⟨some p10, some (statusOnly 200)⟩

/-- The expression `community.events ?? []` as a list: `none` when the value is not an
array, so that `find` and `push` throw. -/
def embeddedEvents (community : Obj) : Option (List Val) :=
  match Obj.get community "events" with
  | .undefined => some []
  | .null => some []
  | .arr events => some events
  | _ => none

/-- The handler of `PUT /communities/event` (lines 226-232). -/
def putEvent (community : Obj) (body : Obj) : Outcome :=
  match embeddedEvents community with
  | none => ⟨none, none⟩
  | some events =>
    ⟨some (Obj.set community "events"
        (.arr (events ++ [.obj (Obj.merge [("status", .str "Active")] body)]))),
      some (statusOnly 200)⟩

/-- The handler of `PUT /communities/event/:id` (lines 233-249). Nothing catches what the
callbacks throw. -/
def putEventById (numberText : Int → String) (community : Obj) (id : String)
    (body : Obj) : Outcome :=
  match embeddedEvents community with
  | none => ⟨none, none⟩
  | some events =>
    match findM (hasId numberText (.str id)) events with
    | none => ⟨none, none⟩
    | some currentEvent =>
      if !((currentEvent.map Val.truthy).getD false) then ⟨none, some (statusOnly 404)⟩
      else
        match mapThrowing (mergeIfId numberText (.str id) body) events with
        | none => ⟨none, none⟩
        | some merged =>
          ⟨some (Obj.set community "events" (.arr merged)), some (statusOnly 200)⟩

/-- The handler of `POST /products` (lines 418-440), behind the vendor middleware:
`saved` is the product it creates from the request body, the vendor's id, the path of the
uploaded file, the fixed status and the running number; the store adds `_id` when the
body gives none. Without an uploaded file `req.file.path` throws. The update of the
vendor's `isProduct` flag is not tracked. -/
def postProduct (numberText : Int → String) (body : Obj) (vendorId : Val)
    (file : Option String) (totalCount : Nat) (newId : String) : Outcome :=
  match file with
  | none => ⟨none, some (statusOnly 500)⟩
  | some path =>
    let fields := Obj.set (Obj.set (Obj.set (Obj.set body "vendor" vendorId)
      "nutrition" (.str path)) "status" (.str "inactive"))
      "id" (.str (numberText (totalCount + 1)))
    let product := if Obj.has fields "_id" then fields else fields ++ [("_id", .oid newId)]
    ⟨some product, some [("status", .num 200), ("product", .obj product)]⟩

/-! ## The vendor product listing (`GET /products/vendor`, lines 145-245) -/

/-- The `$match: nameAndIdFilter` stage (lines 147-156, 174) on one product. -/
def nameIdMatches (rx : String → String → String → Bool) (name id : Option String)
    (doc : Obj) : Bool :=
  matchField rx doc ["name"] (Cond.regex (orEmpty name) "i") &&
    matchField rx doc ["id"] (Cond.regex (orEmpty id) "i")

/-- The operator `$filter` with `cond: { $eq: ["$$specification.name", "sku"] }`:
`null` for a null or missing input, an error for any other non-array. -/
def exprFilterSku (input : Val) : Except AggError Val :=
  match input with
  | .arr items => .ok (.arr (items.filter (fun e => Val.beq (Val.field e "name") (.str "sku"))))
  | .null => .ok Val.null
  | .undefined => .ok Val.null
  | _ => .error AggError.filterNeedsArray

/-- The stage `$project` (lines 175-192): `_id` and the included fields that the
product has, and the computed field `specification`. -/
def projectStage (doc : Obj) : Except AggError Obj := do
  let kept ← exprFilterSku (Obj.get doc "specifications")
  let specification ← exprFirst kept
  pure (objLiteral
    [("_id", Obj.get doc "_id"),
     ("name", Obj.get doc "name"),
     ("status", Obj.get doc "status"),
     ("specification", specification),
     ("createdAt", Obj.get doc "createdAt")])

/-- The stage `$addFields: { inventory }` (lines 201-215). -/
def inventoryStage (doc : Obj) : Except AggError Obj := do
  let kept ← exprFilterImage (Obj.get doc "inventories")
  let inventory ← exprFirst kept
  pure (addField doc "inventory" inventory)

/-- The default record of the `$replaceRoot` stage (lines 220-227). -/
def vendorDefaults : Obj :=
  [("_id", .str ""), ("name", .str ""), ("status", .str ""), ("image", .str ""),
   ("sku", .str ""), ("createdAt", .str "")]

/-- The stage `$replaceRoot` with `$mergeObjects` (lines 216-239). -/
def vendorRootStage (doc : Obj) : Obj :=
  Obj.merge vendorDefaults (objLiteral
    [("_id", Obj.get doc "_id"),
     ("name", Obj.get doc "name"),
     ("status", Obj.get doc "status"),
     ("image", Val.field (Obj.get doc "inventory") "image"),
     ("sku", Val.field (Obj.get doc "specification") "value"),
     ("createdAt", Obj.get doc "createdAt")])

/-- What the vendor listing makes of one product that passed the first `$match`: the
stages of lines 175-239 in order. -/
def vendorRecord (inventories : List Obj) (product : Obj) : Except AggError Obj := do
  let d1 ← projectStage product
  let d2 ← inventoryStage (lookupStage inventories "_id" "productId" "inventories" d1)
  pure (vendorRootStage d2)

/-- The stage `$match: skuFilter` (lines 157-162, 240) on one output record. -/
def skuMatches (rx : String → String → String → Bool) (sku : Option String) (record : Obj) :
    Bool :=
  matchField rx record ["sku"] (Cond.regex (orEmpty sku) "i")

/-- Whether the pattern, read with `.` as the wildcard for any character but a line
feed, matches at the start of the subject. -/
def wildBegins : List Char → List Char → Bool
  | [], _ => true
  | _ :: _, [] => false
  | a :: p, b :: s =>
    (if a.toNat = 46 then decide (b.toNat ≠ 10) else a.toLower == b.toLower) && wildBegins p s

/-- Whether the pattern matches somewhere in the subject. -/
def wildOccurs (p : List Char) : List Char → Bool
  | [] => wildBegins p []
  | c :: s => wildBegins p (c :: s) || wildOccurs p s

/-- A regular expression engine for patterns made of letters, digits and the wildcard
`.`, under option `i`. -/
def wildcardRegex (pattern _options subject : String) : Bool :=
  wildOccurs pattern.toList subject.toList

/-- Whether `needle` is a substring of `hay`, letter case ignored. -/
def substringIgnoringCase (needle hay : String) : Bool :=
  occursIn (needle.toList.map Char.toLower) (hay.toList.map Char.toLower)

/-! ## Sub-documents of a product -/

/-- The body that `res.json` sends: fields whose value is `undefined` are left out. -/
def jsonBody (o : Obj) : Obj :=
  o.filter (fun p => p.2.present)

/-- The expression `v || d`. -/
def orElse (v d : Val) : Val :=
  if v.truthy then v else d

/-- The handler of `GET /products/:id/:category` (lines 385-416), behind the vendor
middleware. `found` is what `findById` returned (`none` for `null`); `styleId` is the
query parameter. Anything thrown inside the `try` ends in status 404. -/
def getCategory (numberText : Int → String) (found : Option Obj) (category : String)
    (styleId : Option String) : Obj :=
  if category == "style" then
    match found with
    | none => statusOnly 404
    | some product =>
      match given styleId with
      | some wanted =>
        match orElse (Obj.get product "styles") (.arr []) with
        | .arr styles =>
          match findM (hasId numberText (.str wanted)) styles with
          | none => statusOnly 404
          | some style =>
            jsonBody [("status", .num 200), ("style", style.getD Val.undefined)]
        | _ => statusOnly 404
      | none =>
        jsonBody [("status", .num 200), ("styles", orElse (Obj.get product "styles") (.arr []))]
  else if category == "specification" then
    match found with
    | none => statusOnly 404
    | some product =>
      jsonBody [("status", .num 200),
        ("specifications", orElse (Obj.get product "specifications") (.arr []))]
  else if category == "customization" then
    match found with
    | none => statusOnly 404
    | some product =>
      jsonBody [("status", .num 200),
        ("customization", orElse (Obj.get product "customization") (.obj []))]
  else if category == "subscription" then
    match found with
    | none => statusOnly 404
    | some product => jsonBody [("status", Obj.get product "subscription")]
  else statusOnly 200

/-- The handler of `PUT /products/:id/:category` (lines 512-527), behind the vendor
middleware. `found` is what `findById` returned (`none` for `null` or a failed lookup);
anything thrown inside the `try` ends in status 404 with nothing saved. -/
def putCategory (found : Option Obj) (category : String) (body : Val) : Outcome :=
  match found with
  | none => ⟨none, some (statusOnly 404)⟩
  | some product =>
    if category == "specification" then
      ⟨some (Obj.set product "specifications" body), some (statusOnly 200)⟩
    else ⟨some product, some (statusOnly 200)⟩

/-! ## Words used to state the properties -/

/-- A value or, when it is missing, the default. Used to state what a record shows. -/
def orDefault (v d : Val) : Val :=
  match v with
  | .undefined => d
  | _ => v

/-- An inventory is image-bearing when it carries an image: the field is there and is
not `null`. -/
def imageBearing (inv : Val) : Bool :=
  match Val.field inv "image" with
  | .undefined => false
  | .null => false
  | _ => true

/-- Whether a value holds a text that a search can match: a string, or an array with a
string among its elements. -/
def holdsText (v : Val) : Bool :=
  match v with
  | .str _ => true
  | .arr items => items.any (fun x => match x with
      | .str _ => true
      | _ => false)
  | _ => false

/-- The first element of an array, missing when the array is empty. -/
def firstOf (l : List Val) : Val :=
  l.head?.getD Val.undefined

/-- The representative inventory: the first image-bearing one, missing when there is
none. -/
def representative (inventories : List Val) : Val :=
  (inventories.find? imageBearing).getD Val.undefined

/-- An array as a list, the empty list for `null` or a missing field, `none` for any other
value. -/
def listOrNone (v : Val) : Option (List Val) :=
  match v with
  | .arr items => some items
  | .null => some []
  | .undefined => some []
  | _ => none

/-- A specification entry counts as the sku entry when its `name` is the text "sku". -/
def namedSku (entry : Val) : Bool :=
  match Val.field entry "name" with
  | .str n => n == "sku"
  | _ => false

/-- The first specification entry named "sku", missing when there is none. -/
def firstSku (specifications : List Val) : Val :=
  (specifications.find? namedSku).getD Val.undefined

/-! ## Sample data -/

/-- A query whose search parameter is the empty string. -/
def searchLess : PublicQuery :=
  { emptyQuery with search := some "" }

/-- A joined product with a name and no vendor. -/
def namedOnly : Obj :=
  joinPublic [] [] [("_id", .oid "64b000000000000000000001"), ("name", .str "Eggs")]

/-- The text of a small integer: its decimal digits. -/
def decimalText (n : Int) : String :=
  toString n

/-- The product that `POST /products` creates from a body with only a category. -/
def namelessProduct : Obj :=
  ((postProduct decimalText [("category", .str "Dairy")]
    (.oid "64b0000000000000000000f2") (some "uploads/dairy.pdf") 1
    "64b000000000000000000002").saved).getD []

/-- The nameless product joined when no vendor document is found. -/
def nameless : Obj :=
  joinPublic [] [] namelessProduct

/-- The nameless product joined with its vendor, a vendor document without shopName. -/
def namelessWithVendor : Obj :=
  joinPublic [] [[("_id", .oid "64b0000000000000000000f2")]] namelessProduct

/-- The product that `POST /products` creates from a body with a name and two delivery
types, and no subscription. -/
def breadProduct : Obj :=
  ((postProduct decimalText
    [("name", .str "Bread"), ("deliveryTypes", .arr [.str "Shipping", .str "Pickup"])]
    (.oid "64b0000000000000000000f2") (some "uploads/bread.pdf") 2
    "64b000000000000000000007").saved).getD []

/-- The query `?minPrice=10&maxPrice=100`. -/
def bothBounds : PublicQuery :=
  { emptyQuery with minPrice := some "10", maxPrice := some "100" }

/-- A product joined with its only inventory, of price 5. -/
def cheapSoap : Obj :=
  joinPublic
    [[("_id", .oid "64b0000000000000000000a1"), ("productId", .oid "64b000000000000000000003"),
      ("price", .num 5)]]
    []
    [("_id", .oid "64b000000000000000000003"), ("name", .str "Soap"),
     ("deliveryTypes", .arr [])]

/-- The stages `$lookup` of the vendor (lines 268-275) and `$unwind: "$vendor"`
(lines 292-294) over a vendors collection. -/
def vendorStages (vendors : List Obj) : List (Obj → Except AggError (List Obj)) :=
  [fun d => .ok [lookupStage vendors "vendor" "_id" "vendor" d], unwindStage "vendor"]

/-- A stored vendor. -/
def storedShop : Obj :=
  [("_id", .oid "64b0000000000000000000f1"), ("shopName", .str "Shop")]

/-- A stored product with a vendor. -/
def storedSoap : Obj :=
  [("_id", .oid "64b000000000000000000003"), ("name", .str "Soap"),
   ("vendor", .oid "64b0000000000000000000f1")]

/-- An ObjectId constructor that accepts exactly the texts of 24 characters. -/
def lengthChecked (s : String) : Option String :=
  if s.length = 24 then some s else none

/-- The scalar fields that `PUT /products/:id` copies with a plain `if`. -/
def scalarFields : List String :=
  ["name", "category", "status", "shortDesc", "longDesc", "disclaimer", "soldByUnit", "tax"]

/-- A stored product named "A". -/
def productA : Obj :=
  [("name", .str "A"), ("category", .str "C")]

/-- The request body `{ name: undefined, category: "B" }`. -/
def recategorise : Obj :=
  [("name", Val.undefined), ("category", .str "B")]

/-- The request body `{ name: "" }`. -/
def renameToEmpty : Obj :=
  [("name", .str "")]

/-- A `JSON.parse` that accepts no text. -/
def parseNothing (_ : Val) : Option Val :=
  none

/-- A stored product with one specification. -/
def productWithSku : Obj :=
  [("name", .str "A"),
   ("specifications", .arr [.obj [("_id", .oid "64b0000000000000000000c1"),
     ("name", .str "sku"), ("value", .str "1")]])]

/-- A community with two events. -/
def communityWithEvents : Obj :=
  [("name", .str "Field"),
   ("events", .arr [.obj [("_id", .oid "64b0000000000000000000e1"), ("name", .str "Fair"),
       ("status", .str "Active")],
     .obj [("_id", .oid "64b0000000000000000000e2"), ("name", .str "Market")]])]

/-- Two inventories of one product: the first has no image field, the second has an
image. -/
def milkInventories : List Obj :=
  [[("_id", .oid "64b0000000000000000000a2"), ("productId", .oid "64b000000000000000000004"),
    ("price", .num 5)],
   [("_id", .oid "64b0000000000000000000a3"), ("productId", .oid "64b000000000000000000004"),
    ("price", .num 7), ("image", .str "milk.png")]]

/-- A product without vendor, joined with the two inventories. -/
def listedMilk : Obj :=
  joinPublic milkInventories []
    [("_id", .oid "64b000000000000000000004"), ("name", .str "Milk"),
     ("deliveryTypes", .arr [])]

/-- A stored product whose second specification is the sku "A1". -/
def productWithSkus : Obj :=
  [("_id", .oid "64b000000000000000000005"), ("name", .str "Soap"), ("id", .str "3"),
   ("specifications", .arr [.obj [("name", .str "size"), ("value", .str "L")],
     .obj [("name", .str "sku"), ("value", .str "A1")],
     .obj [("name", .str "sku"), ("value", .str "B2")]])]

/-- A stored product with a weekly subscription. -/
def productWithPlan : Obj :=
  [("_id", .oid "64b000000000000000000006"), ("name", .str "Milk"),
   ("subscription", .obj [("frequency", .str "weekly")])]

/-! ## Lemmas on objects -/

theorem lookup_append_left {k : String} {v : Val} (a b : Obj) (h : a.lookup k = some v) :
    (a ++ b).lookup k = some v := by
  induction a with
  | nil => simp at h
  | cons p t ih =>
    obtain ⟨q, w⟩ := p
    simp only [List.cons_append, List.lookup_cons] at h ⊢
    cases hq : (k == q) <;> simp only [hq] at h ⊢
    · exact ih h
    · exact h

theorem lookup_append_right {k : String} (a b : Obj) (h : a.lookup k = none) :
    (a ++ b).lookup k = b.lookup k := by
  induction a with
  | nil => rfl
  | cons p t ih =>
    obtain ⟨q, w⟩ := p
    simp only [List.cons_append, List.lookup_cons] at h ⊢
    cases hq : (k == q) <;> simp only [hq] at h ⊢
    · exact ih h
    · cases h

theorem has_eq_false_iff (o : Obj) (k : String) : Obj.has o k = false ↔ o.lookup k = none := by
  induction o with
  | nil => simp [Obj.has]
  | cons p t ih =>
    obtain ⟨q, w⟩ := p
    simp only [Obj.has, List.any_cons, List.lookup_cons] at ih ⊢
    by_cases hq : k = q
    · subst hq; simp
    · have h1 : (k == q) = false := by simpa using hq
      have h2 : (q == k) = false := by simpa using fun h => hq h.symm
      simp only [h1, h2, Bool.false_or]
      exact ih

theorem has_eq_true_iff (o : Obj) (k : String) : Obj.has o k = true ↔ ∃ v, o.lookup k = some v := by
  cases h : Obj.has o k
  · have := (has_eq_false_iff o k).1 h
    simp [this]
  · cases hl : o.lookup k with
    | none => rw [(has_eq_false_iff o k).2 hl] at h; cases h
    | some v => simp

theorem get_set (o : Obj) (k j : String) (v : Val) :
    Obj.get (Obj.set o k v) j = if j = k then v else Obj.get o j := by
  unfold Obj.set
  cases hh : Obj.has o k
  · have hn := (has_eq_false_iff o k).1 hh
    simp only [Bool.false_eq_true, if_false, Obj.get]
    by_cases hj : j = k
    · subst hj
      rw [lookup_append_right _ _ hn]
      simp [List.lookup_cons]
    · simp only [hj, if_false]
      cases hl : o.lookup j with
      | none =>
        rw [lookup_append_right _ _ hl]
        have : (j == k) = false := by simpa using hj
        simp [List.lookup_cons, this]
      | some w => rw [lookup_append_left _ _ hl]
  · simp only [if_true, Obj.get]
    by_cases hj : j = k
    · subst hj
      simp only [if_true]
      induction o with
      | nil => simp [Obj.has] at hh
      | cons p t ih =>
        obtain ⟨q, w⟩ := p
        simp only [List.map_cons, Obj.has, List.any_cons] at hh ⊢
        by_cases hq : q = j
        · subst hq; simp [List.lookup_cons]
        · have h1 : (q == j) = false := by simpa using hq
          have h2 : (j == q) = false := by simpa using fun h => hq h.symm
          simp only [h1, Bool.false_or] at hh
          simp only [h1, Bool.false_eq_true, if_false, List.lookup_cons, h2]
          exact ih hh
    · simp only [hj, if_false]
      clear hh
      induction o with
      | nil => rfl
      | cons p t ih =>
        obtain ⟨q, w⟩ := p
        simp only [List.map_cons]
        by_cases hq : q = k
        · subst hq
          have h2 : (j == q) = false := by simpa using hj
          simp only [beq_self_eq_true, if_true, List.lookup_cons, h2]
          exact ih
        · have h1 : (q == k) = false := by simpa using hq
          simp only [h1, Bool.false_eq_true, if_false, List.lookup_cons]
          cases (j == q)
          · exact ih
          · rfl

theorem get_erase (o : Obj) (k j : String) :
    Obj.get (Obj.erase o k) j = if j = k then Val.undefined else Obj.get o j := by
  unfold Obj.erase Obj.get
  induction o with
  | nil => simp
  | cons p t ih =>
    obtain ⟨q, w⟩ := p
    by_cases hq : q = k
    · subst hq
      simp only [List.filter_cons, bne_self_eq_false, Bool.false_eq_true, if_false, ih,
        List.lookup_cons]
      by_cases hj : j = q
      · simp [hj]
      · have : (j == q) = false := by simpa using hj
        simp [hj, this]
    · have h1 : (q != k) = true := by simpa using hq
      simp only [List.filter_cons, h1, if_true, List.lookup_cons]
      by_cases hj : j = q
      · subst hj
        simp [hq]
      · have : (j == q) = false := by simpa using hj
        simp only [this]
        exact ih

theorem get_addField (o : Obj) (k j : String) (v : Val) :
    Obj.get (addField o k v) j = if j = k then v else Obj.get o j := by
  cases v <;> simp only [addField, get_set, get_erase]

theorem lookup_mapVal (a : Obj) (g : String → Val → Val) (k : String) :
    (a.map (fun p => (p.1, g p.1 p.2))).lookup k = (a.lookup k).map (g k) := by
  induction a with
  | nil => rfl
  | cons p t ih =>
    obtain ⟨q, w⟩ := p
    simp only [List.map_cons, List.lookup_cons]
    by_cases hq : k = q
    · subst hq; simp
    · have h1 : (k == q) = false := by simpa using hq
      simp only [h1]
      exact ih

theorem lookup_filter_lacking (a b : Obj) (k : String) (h : a.lookup k = none) :
    (b.filter (fun p => !Obj.has a p.1)).lookup k = b.lookup k := by
  induction b with
  | nil => rfl
  | cons p t ih =>
    obtain ⟨q, w⟩ := p
    by_cases hq : k = q
    · subst hq
      have hh : Obj.has a k = false := (has_eq_false_iff a k).2 h
      simp [List.filter_cons, hh, List.lookup_cons]
    · have h1 : (k == q) = false := by simpa using hq
      cases hh : Obj.has a q
      · simp only [List.filter_cons, hh, Bool.not_false, if_true, List.lookup_cons, h1]
        exact ih
      · simp only [List.filter_cons, hh, Bool.not_true, Bool.false_eq_true, if_false,
          List.lookup_cons, h1]
        exact ih

theorem lookup_merge (a b : Obj) (k : String) :
    (Obj.merge a b).lookup k = (b.lookup k).orElse (fun _ => a.lookup k) := by
  unfold Obj.merge
  have hm := lookup_mapVal a (fun key v => (b.lookup key).getD v) k
  cases ha : a.lookup k with
  | none =>
    rw [ha] at hm
    rw [lookup_append_right _ _ hm, lookup_filter_lacking a b k ha]
    cases b.lookup k <;> rfl
  | some v =>
    rw [ha] at hm
    rw [lookup_append_left _ _ hm]
    cases b.lookup k <;> rfl

theorem get_merge (a b : Obj) (k : String) :
    Obj.get (Obj.merge a b) k = (b.lookup k).getD (Obj.get a k) := by
  unfold Obj.get
  rw [lookup_merge]
  cases b.lookup k <;> rfl

theorem lookup_none_of_not_mem (o : Obj) (k : String) (h : k ∉ o.map Prod.fst) :
    o.lookup k = none := by
  induction o with
  | nil => rfl
  | cons p t ih =>
    obtain ⟨q, w⟩ := p
    simp only [List.map_cons, List.mem_cons, not_or] at h
    have h1 : (k == q) = false := by simpa using h.1
    simp only [List.lookup_cons, h1]
    exact ih h.2

theorem lookup_objLiteral (fs : Obj) (k : String) (h : (fs.map Prod.fst).Nodup) :
    (objLiteral fs).lookup k = (fs.lookup k).filter Val.present := by
  unfold objLiteral
  induction fs with
  | nil => rfl
  | cons p t ih =>
    obtain ⟨q, w⟩ := p
    simp only [List.map_cons, List.nodup_cons] at h
    by_cases hq : k = q
    · subst hq
      have ht := lookup_none_of_not_mem t k h.1
      cases hw : w.present
      · simp only [List.filter_cons, hw, Bool.false_eq_true, if_false, ih h.2, ht,
          List.lookup_cons, beq_self_eq_true]
        simp [Option.filter, hw]
      · simp [List.filter_cons, hw, List.lookup_cons, Option.filter]
    · have h1 : (k == q) = false := by simpa using hq
      cases hw : w.present
      · simp only [List.filter_cons, hw, Bool.false_eq_true, if_false, List.lookup_cons, h1]
        exact ih h.2
      · simp only [List.filter_cons, hw, if_true, List.lookup_cons, h1]
        exact ih h.2

theorem get_record (defaults raw : Obj) (k : String) (d v : Val)
    (hn : (raw.map Prod.fst).Nodup) (hd : defaults.lookup k = some d)
    (hr : raw.lookup k = some v) :
    Obj.get (Obj.merge defaults (objLiteral raw)) k = orDefault v d := by
  rw [get_merge, lookup_objLiteral raw k hn, hr]
  cases v <;> simp [Option.filter, Val.present, orDefault, Obj.get, hd]

theorem keys_merge_of_subset (a b : Obj) (h : ∀ p ∈ b, Obj.has a p.1 = true) :
    (Obj.merge a b).map Prod.fst = a.map Prod.fst := by
  unfold Obj.merge
  have hf : b.filter (fun p => !Obj.has a p.1) = [] := by
    rw [List.filter_eq_nil_iff]
    intro p hp
    simp [h p hp]
  rw [hf, List.append_nil, List.map_map]
  rfl

theorem beq_str_iff (s : String) (v : Val) : Val.beq (.str s) v = true ↔ v = .str s := by
  cases v <;> simp only [Val.beq] <;> simp
  exact eq_comm

theorem beq_null_iff (v : Val) : Val.beq v .null = true ↔ v = .null := by
  cases v <;> simp only [Val.beq] <;> simp

theorem beq_oid_iff (v : Val) (o : String) : Val.beq v (.oid o) = true ↔ v = .oid o := by
  cases v <;> simp only [Val.beq] <;> simp

theorem firstOf_filter (l : List Val) (p : Val → Bool) :
    firstOf (l.filter p) = (l.find? p).getD Val.undefined := by
  induction l with
  | nil => rfl
  | cons x t ih =>
    cases hx : p x
    · simp only [List.filter_cons, hx, Bool.false_eq_true, if_false, List.find?_cons]
      exact ih
    · simp [List.filter_cons, hx, List.find?_cons, firstOf]

theorem exprNe_null_of_present (v : Val) (h : (Val.field v "image").present = true) :
    exprNe (Val.field v "image") Val.null = imageBearing v := by
  unfold exprNe imageBearing
  cases hv : Val.field v "image" <;> simp only [Val.beq] <;> first | rfl | (rw [hv] at h; cases h)

theorem pickedInventory_eq_representative (invs : List Val)
    (h : ∀ inv ∈ invs, (Val.field inv "image").present = true) :
    pickedInventory invs = representative invs := by
  unfold pickedInventory representative
  induction invs with
  | nil => rfl
  | cons x t ih =>
    have hx := exprNe_null_of_present x (h x (List.mem_cons_self _ _))
    simp only [List.find?_cons, hx]
    cases imageBearing x
    · exact ih (fun inv hi => h inv (List.mem_cons_of_mem _ hi))
    · rfl

theorem exprFirst_arr (l : List Val) : exprFirst (.arr l) = .ok (firstOf l) := by
  cases l <;> rfl

theorem representativeStage_eq (doc : Obj) (invs vs : List Val)
    (hI : Obj.get doc "inventories" = .arr invs) (hV : Obj.get doc "vendor" = .arr vs) :
    representativeStage doc =
      .ok (addField (addField doc "inventory" (pickedInventory invs)) "vendor" (firstOf vs)) := by
  simp only [representativeStage, hI, hV, exprFilterImage, exprFirst_arr, firstOf_filter,
    pickedInventory, bind, Except.bind, pure, Except.pure]

theorem tagsExpr_congr (d e : Obj) (h1 : Obj.get d "deliveryTypes" = Obj.get e "deliveryTypes")
    (h2 : Obj.get d "subscription" = Obj.get e "subscription") : tagsExpr d = tagsExpr e := by
  simp only [tagsExpr, h1, h2]

theorem any_beq_str (s : String) (l : List Val) :
    l.any (fun y => Val.beq (.str s) y) = true ↔ Val.str s ∈ l := by
  simp only [List.any_eq_true, beq_str_iff]
  constructor
  · rintro ⟨x, hx, rfl⟩; exact hx
  · intro h; exact ⟨_, h, rfl⟩

theorem tagsExpr_cases (doc : Obj) (dts : List Val)
    (hD : Obj.get doc "deliveryTypes" = .arr dts) :
    ∃ tags, tagsExpr doc = .ok tags ∧ tags.present = true ∧
      (Val.str "Local Subscriptions" ∈ dts →
        tags = .arr [.str "Subscription", .str "Near By"]) ∧
      (Val.str "Local Subscriptions" ∉ dts → Val.str "Near By" ∈ dts →
        tags = .arr [.str "Near By"]) ∧
      (Val.str "Local Subscriptions" ∉ dts → Val.str "Near By" ∉ dts →
        Obj.get doc "subscription" ≠ Val.null → tags = .arr [.str "Subscription"]) ∧
      (Val.str "Local Subscriptions" ∉ dts → Val.str "Near By" ∉ dts →
        Obj.get doc "subscription" = Val.null → tags = .arr []) := by
  have e1 := any_beq_str "Local Subscriptions" dts
  have e2 := any_beq_str "Near By" dts
  have e3 := beq_null_iff (Obj.get doc "subscription")
  simp only [tagsExpr, hD, exprIn, exprNe, bind, Except.bind, pure, Except.pure]
  cases h1 : dts.any (fun y => Val.beq (.str "Local Subscriptions") y)
  · have n1 : Val.str "Local Subscriptions" ∉ dts := by
      intro h; rw [e1.2 h] at h1; cases h1
    cases h2 : dts.any (fun y => Val.beq (.str "Near By") y)
    · have n2 : Val.str "Near By" ∉ dts := by
        intro h; rw [e2.2 h] at h2; cases h2
      cases h3 : Val.beq (Obj.get doc "subscription") Val.null
      · have n3 : Obj.get doc "subscription" ≠ Val.null := by
          intro h; rw [e3.2 h] at h3; cases h3
        refine ⟨_, rfl, rfl, ?_, ?_, ?_, ?_⟩
        · intro h; exact absurd h n1
        · intro _ h; exact absurd h n2
        · intro _ _ _; rfl
        · intro _ _ h; exact absurd h n3
      · have y3 := e3.1 h3
        refine ⟨_, rfl, rfl, ?_, ?_, ?_, ?_⟩
        · intro h; exact absurd h n1
        · intro _ h; exact absurd h n2
        · intro _ _ h; exact absurd y3 h
        · intro _ _ _; rfl
    · have y2 := e2.1 h2
      refine ⟨_, rfl, rfl, ?_, ?_, ?_, ?_⟩
      · intro h; exact absurd h n1
      · intro _ _; rfl
      · intro _ h; exact absurd y2 h
      · intro _ h; exact absurd y2 h
  · have y1 := e1.1 h1
    refine ⟨_, rfl, rfl, ?_, ?_, ?_, ?_⟩
    · intro _; rfl
    · intro h; exact absurd y1 h
    · intro h; exact absurd y1 h
    · intro h; exact absurd y1 h

theorem publicRecord_eq (doc : Obj) (invs vs : List Val)
    (hI : Obj.get doc "inventories" = .arr invs) (hV : Obj.get doc "vendor" = .arr vs)
    (tags : Val) (hT : tagsExpr doc = .ok tags) :
    publicRecord doc = .ok (replaceRootStage (addField (addField (addField doc
      "inventory" (pickedInventory invs)) "vendor" (firstOf vs)) "tags" tags)) := by
  have hc : tagsExpr (addField (addField doc "inventory" (pickedInventory invs)) "vendor"
      (firstOf vs)) = tagsExpr doc := by
    apply tagsExpr_congr <;> simp [get_addField]
  simp only [publicRecord, representativeStage_eq doc invs vs hI hV, tagsStage, hc, hT, bind,
    Except.bind, pure, Except.pure]

theorem replaceRoot_keys (doc : Obj) :
    (replaceRootStage doc).map Prod.fst =
      ["_id", "category", "name", "shopName", "price", "image", "tags"] := by
  unfold replaceRootStage
  rw [keys_merge_of_subset]
  · rfl
  · intro p hp
    have hp2 := (List.mem_filter.1 hp).1
    simp only [List.mem_cons, List.mem_singleton, List.not_mem_nil, or_false] at hp2
    rcases hp2 with h | h | h | h | h | h | h <;> subst h <;> rfl

theorem replaceRoot_get (doc : Obj) (k : String) (d v : Val)
    (hd : publicDefaults.lookup k = some d)
    (hr : List.lookup k
      [("_id", Obj.get doc "_id"),
       ("category", Obj.get doc "category"),
       ("name", Obj.get doc "name"),
       ("shopName", Val.field (Obj.get doc "vendor") "shopName"),
       ("price", Val.field (Obj.get doc "inventory") "price"),
       ("image", Val.field (Obj.get doc "inventory") "image"),
       ("tags", Obj.get doc "tags")] = some v) :
    Obj.get (replaceRootStage doc) k = orDefault v d := by
  unfold replaceRootStage
  exact get_record _ _ k d v (by simp) hd hr

theorem joinPublic_fields (inventories vendors : List Obj) (product : Obj) :
    (∃ invs, Obj.get (joinPublic inventories vendors product) "inventories" = .arr invs) ∧
      (∃ vs, Obj.get (joinPublic inventories vendors product) "vendor" = .arr vs) ∧
      Obj.get (joinPublic inventories vendors product) "deliveryTypes"
        = Obj.get product "deliveryTypes" ∧
      Obj.get (joinPublic inventories vendors product) "subscription"
        = Obj.get product "subscription" := by
  simp only [joinPublic, lookupStage, get_set]
  refine ⟨?_, ?_, ?_, ?_⟩
  · simp
  · simp
  · simp
  · simp

/-! ## The public product listing -/

/-- What the tag rule of the code gives on a joined document whose `deliveryTypes` is an
array: "Local Subscriptions" gives Subscription and Near By; otherwise "Near By" gives
Near By; otherwise the tags are Subscription unless the `subscription` field holds an
explicit `null`, in which case they are empty. -/
theorem publicRecord_tags (doc : Obj) (invs vs dts : List Val)
    (hI : Obj.get doc "inventories" = .arr invs) (hV : Obj.get doc "vendor" = .arr vs)
    (hD : Obj.get doc "deliveryTypes" = .arr dts) :
    ∃ r, publicRecord doc = .ok r ∧
      (Val.str "Local Subscriptions" ∈ dts →
        Obj.get r "tags" = .arr [.str "Subscription", .str "Near By"]) ∧
      (Val.str "Local Subscriptions" ∉ dts → Val.str "Near By" ∈ dts →
        Obj.get r "tags" = .arr [.str "Near By"]) ∧
      (Val.str "Local Subscriptions" ∉ dts → Val.str "Near By" ∉ dts →
        Obj.get doc "subscription" ≠ Val.null →
        Obj.get r "tags" = .arr [.str "Subscription"]) ∧
      (Val.str "Local Subscriptions" ∉ dts → Val.str "Near By" ∉ dts →
        Obj.get doc "subscription" = Val.null → Obj.get r "tags" = .arr []) := by
  obtain ⟨tags, hT, hp, c1, c2, c3, c4⟩ := tagsExpr_cases doc dts hD
  refine ⟨_, publicRecord_eq doc invs vs hI hV tags hT, ?_⟩
  have hg : Obj.get (replaceRootStage (addField (addField (addField doc
      "inventory" (pickedInventory invs)) "vendor" (firstOf vs)) "tags" tags)) "tags" = tags := by
    rw [replaceRoot_get _ "tags" (.arr []) tags rfl (by simp [List.lookup, get_addField])]
    cases tags <;> first | rfl | cases hp
  rw [hg]
  exact ⟨c1, c2, c3, c4⟩

/-- C1: a product created without a subscription, with delivery types Shipping and Pickup,
has no `subscription` field and is left out by the `?type=subscription` stage of the same
handler, yet its record in the public listing carries the tag Subscription instead of no
tag: `$ne: ["$subscription", null]` holds for a missing field. -/
theorem C1_product_without_subscription_is_tagged :
    breadProduct.lookup "subscription" = none ∧
      typeStage (some "subscription") breadProduct = false ∧
      (publicRecord (joinPublic [] [] breadProduct)).map (fun r => Obj.get r "tags")
        = .ok (.arr [.str "Subscription"]) :=
  ⟨rfl, rfl, rfl⟩

/-- What the record of the public listing shows for a joined document in which every
inventory has an `image` field (possibly `null`): exactly the seven display fields, each
with its source value when that value exists and its default when it is missing; `price`
and `image` come from the representative inventory. -/
theorem publicRecord_fields (doc : Obj) (invs vs dts : List Val)
    (hI : Obj.get doc "inventories" = .arr invs) (hV : Obj.get doc "vendor" = .arr vs)
    (hD : Obj.get doc "deliveryTypes" = .arr dts)
    (hImg : ∀ inv ∈ invs, (Val.field inv "image").present = true) :
    ∃ r tags, publicRecord doc = .ok r ∧ tagsExpr doc = .ok tags ∧
      r.map Prod.fst = ["_id", "category", "name", "shopName", "price", "image", "tags"] ∧
      Obj.get r "_id" = orDefault (Obj.get doc "_id") (.str "") ∧
      Obj.get r "category" = orDefault (Obj.get doc "category") (.str "") ∧
      Obj.get r "name" = orDefault (Obj.get doc "name") (.str "") ∧
      Obj.get r "shopName" = orDefault (Val.field (firstOf vs) "shopName") (.str "") ∧
      Obj.get r "price" = orDefault (Val.field (representative invs) "price") (.num 0) ∧
      Obj.get r "image" = orDefault (Val.field (representative invs) "image") (.str "") ∧
      Obj.get r "tags" = tags := by
  obtain ⟨tags, hT, hp, -⟩ := tagsExpr_cases doc dts hD
  rw [← pickedInventory_eq_representative invs hImg]
  refine ⟨_, tags, publicRecord_eq doc invs vs hI hV tags hT, hT, replaceRoot_keys _,
    ?_, ?_, ?_, ?_, ?_, ?_, ?_⟩
  · rw [replaceRoot_get _ "_id" (.str "") _ rfl rfl]
    simp [get_addField]
  · rw [replaceRoot_get _ "category" (.str "") _ rfl rfl]
    simp [get_addField]
  · rw [replaceRoot_get _ "name" (.str "") _ rfl rfl]
    simp [get_addField]
  · rw [replaceRoot_get _ "shopName" (.str "") _ rfl rfl]
    simp [get_addField]
  · rw [replaceRoot_get _ "price" (.num 0) _ rfl rfl]
    simp [get_addField]
  · rw [replaceRoot_get _ "image" (.str "") _ rfl rfl]
    simp [get_addField]
  · rw [replaceRoot_get _ "tags" (.arr []) tags rfl (by simp [List.lookup, get_addField])]
    cases tags <;> first | rfl | cases hp

/-- C10: a product is joined with two inventories, the first without an `image` field
(price 5), the second with the image "milk.png" (price 7). The representative inventory,
the first one carrying an image, is the second; yet the record shows price 5 and the
default image "": `$ne: ["$$inventory.image", null]` holds for a missing field, so the
first inventory is picked. -/
theorem C10_imageless_inventory_is_picked :
    Val.field (representative (milkInventories.map Val.obj)) "image" = .str "milk.png" ∧
      Val.field (representative (milkInventories.map Val.obj)) "price" = .num 7 ∧
      (publicRecord listedMilk).map (fun r => (Obj.get r "price", Obj.get r "image"))
        = .ok (.num 5, .str "") :=
  ⟨rfl, rfl, rfl⟩

/-! ## The filter of the public listing -/

theorem assign_anyOf (f : Filter) (key : Path) (c : Cond) :
    (f.assign key c).anyOf = f.anyOf := by
  unfold Filter.assign
  split <;> rfl

theorem publicFilter_anyOf (mkId : String → Option String) (toNumber : String → Option Int)
    (q : PublicQuery)
    (hC : ∀ c, given q.community = some c → ∃ h, mkId c = some h)
    (hV : ∀ v, given q.vendor = some v → ∃ h, mkId v = some h) :
    ∃ f, publicFilter mkId toNumber q = some f ∧
      f.anyOf = [(["name"], Cond.regex (orEmpty q.search) "i"),
                 (["vendor", "shopName"], Cond.regex (orEmpty q.search) "i")] := by
  unfold publicFilter
  cases h1 : given q.community with
  | none =>
    cases h2 : given q.vendor with
    | none =>
      refine ⟨_, rfl, ?_⟩
      cases given q.category <;> cases given q.minPrice <;> cases given q.maxPrice <;>
        simp only [assign_anyOf]
    | some v =>
      obtain ⟨h, hh⟩ := hV v h2
      simp only [hh, Option.map_some', Option.bind_eq_bind, Option.some_bind, Option.pure_def]
      refine ⟨_, rfl, ?_⟩
      cases given q.category <;> cases given q.minPrice <;> cases given q.maxPrice <;>
        simp only [assign_anyOf]
  | some c =>
    obtain ⟨h, hh⟩ := hC c h1
    cases h2 : given q.vendor with
    | none =>
      simp only [hh, Option.map_some', Option.bind_eq_bind, Option.some_bind, Option.pure_def]
      refine ⟨_, rfl, ?_⟩
      cases given q.category <;> cases given q.minPrice <;> cases given q.maxPrice <;>
        simp only [assign_anyOf]
    | some v =>
      obtain ⟨k, hk⟩ := hV v h2
      simp only [hh, hk, Option.map_some', Option.bind_eq_bind, Option.some_bind,
        Option.pure_def]
      refine ⟨_, rfl, ?_⟩
      cases given q.category <;> cases given q.minPrice <;> cases given q.maxPrice <;>
        simp only [assign_anyOf]
theorem lookup_of_get (o : Obj) (k : String) (v : Val) (h : Obj.get o k = v)
    (hv : v.present = true) : o.lookup k = some v := by
  unfold Obj.get at h
  cases hl : o.lookup k with
  | none => rw [hl] at h; subst h; cases hv
  | some w => rw [hl] at h; exact congrArg some h

theorem orEmpty_eq_getD (p : Option String) : orEmpty p = p.getD "" := by
  cases p with
  | none => rfl
  | some s =>
    simp only [orEmpty, given, param, Val.truthy, Option.getD_some]
    by_cases hs : s = ""
    · subst hs; rfl
    · have : (s != "") = true := by simpa using hs
      simp [this]

theorem orEmpty_of_absent (p : Option String) (h : p = none ∨ p = some "") : orEmpty p = "" := by
  rcases h with h | h <;> subst h <;> rfl

theorem condHolds_empty (rx : String → String → String → Bool)
    (hrx : ∀ s, rx "" "i" s = true) (v : Val) :
    condHolds rx (Cond.regex "" "i") v = holdsText (.arr [v]) := by
  cases v <;> simp [condHolds, holdsText, hrx]

theorem leaf_empty (rx : String → String → String → Bool)
    (hrx : ∀ s, rx "" "i" s = true) (w : Val) :
    (leafCandidates w).any (condHolds rx (Cond.regex "" "i")) = holdsText w := by
  have hc : condHolds rx (Cond.regex "" "i") = fun v => holdsText (.arr [v]) :=
    funext (condHolds_empty rx hrx)
  rw [hc]
  cases w <;> simp [leafCandidates, holdsText]

theorem matchField_name (rx : String → String → String → Bool)
    (hrx : ∀ s, rx "" "i" s = true) (doc : Obj) :
    matchField rx doc ["name"] (Cond.regex "" "i") = holdsText (Obj.get doc "name") := by
  unfold matchField Obj.get
  cases hl : doc.lookup "name" with
  | none => simp [valuesAt, pathStep, hl, holdsText]
  | some w =>
    simp only [valuesAt, pathStep, hl, List.flatMap_cons, List.flatMap_nil, Option.toList,
      List.append_nil, Option.getD_some]
    exact leaf_empty rx hrx w

theorem shopNames_any (rx : String → String → String → Bool)
    (hrx : ∀ s, rx "" "i" s = true) (vs : List Val) :
    ((vs.filterMap (fun x => match x with
        | .obj fs => fs.lookup "shopName"
        | _ => none)).flatMap leafCandidates).any (condHolds rx (Cond.regex "" "i"))
      = vs.any (fun v => holdsText (Val.field v "shopName")) := by
  induction vs with
  | nil => rfl
  | cons x t ih =>
    cases x with
    | obj fs =>
      cases hl : fs.lookup "shopName" with
      | none =>
        simp only [List.filterMap_cons, hl, List.any_cons, Val.field, Obj.get, Option.getD_none,
          holdsText, Bool.false_or]
        exact ih
      | some w =>
        have hx : Val.field (.obj fs) "shopName" = w := by simp [Val.field, Obj.get, hl]
        simp only [List.filterMap_cons, hl, List.flatMap_cons, List.any_append, List.any_cons,
          hx, leaf_empty rx hrx w, ih]
    | _ =>
      simp only [List.filterMap_cons, List.any_cons, Val.field, holdsText, Bool.false_or]
      exact ih

theorem matchField_shopName (rx : String → String → String → Bool)
    (hrx : ∀ s, rx "" "i" s = true) (doc : Obj) (vs : List Val)
    (h : Obj.get doc "vendor" = .arr vs) :
    matchField rx doc ["vendor", "shopName"] (Cond.regex "" "i")
      = vs.any (fun v => holdsText (Val.field v "shopName")) := by
  have hl := lookup_of_get doc "vendor" (.arr vs) h rfl
  unfold matchField
  simp only [valuesAt, List.flatMap_cons, List.flatMap_nil, List.append_nil, pathStep, hl,
    Option.toList]
  exact shopNames_any rx hrx vs

/-- C4 (as amended): when the search parameter is empty or absent, the name /
vendor.shopName part of the filter matches exactly the joined documents in which the name,
or the shopName of a joined vendor, is a string or an array with a string among its
elements; every other joined document is excluded. -/
theorem C4_open_search (rx : String → String → String → Bool)
    (hrx : ∀ s, rx "" "i" s = true)
    (mkId : String → Option String) (toNumber : String → Option Int) (q : PublicQuery)
    (hS : q.search = none ∨ q.search = some "")
    (hC : ∀ c, given q.community = some c → ∃ h, mkId c = some h)
    (hV : ∀ v, given q.vendor = some v → ∃ h, mkId v = some h) :
    ∃ f, publicFilter mkId toNumber q = some f ∧
      ∀ (doc : Obj) (vs : List Val), Obj.get doc "vendor" = .arr vs →
        (searchMatches rx f doc = true ↔
          (holdsText (Obj.get doc "name") = true ∨
            ∃ v ∈ vs, holdsText (Val.field v "shopName") = true)) := by
  obtain ⟨f, hf, ha⟩ := publicFilter_anyOf mkId toNumber q hC hV
  refine ⟨f, hf, ?_⟩
  intro doc vs hvs
  rw [orEmpty_of_absent q.search hS] at ha
  simp only [searchMatches, ha, List.any_cons, List.any_nil, Bool.or_false, Bool.or_eq_true,
    matchField_name rx hrx doc, matchField_shopName rx hrx doc vs hvs, List.any_eq_true]

theorem occursIn_nil (s : List Char) : occursIn [] s = true := by
  cases s <;> simp [occursIn, beginsWith]

theorem substringRegex_empty (s : String) : substringRegex "" "i" s = true := by
  unfold substringRegex
  exact occursIn_nil _

theorem C4_open_search_witness :
    ∃ f, publicFilter (fun s => some s) decimalNumber searchLess = some f ∧
      searchMatches substringRegex f namedOnly = true ∧
      searchMatches substringRegex f namelessWithVendor = false := by
  obtain ⟨f, hf, h⟩ := C4_open_search substringRegex substringRegex_empty (fun s => some s)
    decimalNumber searchLess (Or.inr rfl) (fun c _ => ⟨c, rfl⟩) (fun v _ => ⟨v, rfl⟩)
  refine ⟨f, hf, (h namedOnly [] rfl).2 (Or.inl rfl), ?_⟩
  cases hm : searchMatches substringRegex f namelessWithVendor
  · rfl
  · have := (h namelessWithVendor [.obj [("_id", .oid "64b0000000000000000000f2")]] rfl).1 hm
    rcases this with h1 | ⟨v, hv, h2⟩
    · cases h1
    · rw [List.mem_singleton] at hv
      subst hv
      cases h2

/-- C4 (as stated) fails: `POST /products` with a body that has no name creates a product
without a `name` field; with no search parameter the search part of the filter excludes
it, both when no vendor document is joined and when the joined vendor has no shopName,
even with an engine on which every pattern matches every string. -/
theorem C4_search_excludes_nameless :
    namelessProduct.lookup "name" = none ∧
      (publicFilter (fun s => some s) decimalNumber emptyQuery).map
        (fun f => (searchMatches (fun _ _ _ => true) f nameless,
          searchMatches (fun _ _ _ => true) f namelessWithVendor)) = some (false, false) :=
  ⟨rfl, rfl⟩

theorem lookup_map_other (l : List (Path × Cond)) (k j : Path) (c : Cond) (h : j ≠ k) :
    (l.map (fun p => if p.1 == k then (k, c) else p)).lookup j = l.lookup j := by
  induction l with
  | nil => rfl
  | cons p t ih =>
    obtain ⟨q, w⟩ := p
    simp only [List.map_cons, List.lookup_cons]
    by_cases hq : q = k
    · subst hq
      have : (j == q) = false := by simpa using h
      simp only [beq_self_eq_true, if_true, List.lookup_cons, this]
      exact ih
    · have h1 : (q == k) = false := by simpa using hq
      simp only [h1, Bool.false_eq_true, if_false, List.lookup_cons]
      cases (j == q)
      · exact ih
      · rfl

theorem fields_lookup_assign (f : Filter) (k j : Path) (c : Cond) :
    (f.assign k c).fields.lookup j = if j = k then some c else f.fields.lookup j := by
  obtain ⟨a, l⟩ := f
  unfold Filter.assign
  simp only
  induction l with
  | nil =>
    by_cases hj : j = k
    · subst hj; simp [List.lookup_cons]
    · have : (j == k) = false := by simpa using hj
      simp [List.lookup_cons, this, hj]
  | cons p t ih =>
    obtain ⟨q, w⟩ := p
    by_cases hq : q = k
    · subst hq
      simp only [List.any_cons, beq_self_eq_true, Bool.true_or, if_true, List.map_cons,
        List.lookup_cons]
      by_cases hj : j = q
      · subst hj; simp
      · have : (j == q) = false := by simpa using hj
        simp only [this, hj, if_false]
        exact lookup_map_other t q j c hj
    · have h1 : (q == k) = false := by simpa using hq
      simp only [List.any_cons, h1, Bool.false_or, List.map_cons, Bool.false_eq_true, if_false]
        at ih ⊢
      cases ha : t.any (fun p => p.1 == k)
      · simp only [ha, Bool.false_eq_true, if_false, List.cons_append, List.lookup_cons] at ih ⊢
        by_cases hj : j = q
        · subst hj
          have : j ≠ k := hq
          simp [this]
        · have : (j == q) = false := by simpa using hj
          simp only [this]
          exact ih
      · simp only [ha, if_true, List.lookup_cons] at ih ⊢
        by_cases hj : j = q
        · subst hj
          have : j ≠ k := hq
          simp [this]
        · have : (j == q) = false := by simpa using hj
          simp only [this]
          exact ih

theorem priceCond_publicFilter (mkId : String → Option String)
    (toNumber : String → Option Int) (q : PublicQuery)
    (hC : ∀ c, given q.community = some c → ∃ h, mkId c = some h)
    (hV : ∀ v, given q.vendor = some v → ∃ h, mkId v = some h) :
    ∃ f, publicFilter mkId toNumber q = some f ∧
      priceCond f =
        match given q.maxPrice, given q.minPrice with
        | some hi, _ => some (Cond.lte (toNumber hi))
        | none, some lo => some (Cond.gte (toNumber lo))
        | none, none => none := by
  unfold publicFilter
  cases h1 : given q.community with
  | none =>
    cases h2 : given q.vendor with
    | none =>
      refine ⟨_, rfl, ?_⟩
      cases given q.category <;> cases given q.minPrice <;> cases given q.maxPrice <;>
        simp [priceCond, fields_lookup_assign]
    | some v =>
      obtain ⟨h, hh⟩ := hV v h2
      simp only [hh, Option.map_some', Option.bind_eq_bind, Option.some_bind, Option.pure_def]
      refine ⟨_, rfl, ?_⟩
      cases given q.category <;> cases given q.minPrice <;> cases given q.maxPrice <;>
        simp [priceCond, fields_lookup_assign]
  | some c =>
    obtain ⟨h, hh⟩ := hC c h1
    cases h2 : given q.vendor with
    | none =>
      simp only [hh, Option.map_some', Option.bind_eq_bind, Option.some_bind, Option.pure_def]
      refine ⟨_, rfl, ?_⟩
      cases given q.category <;> cases given q.minPrice <;> cases given q.maxPrice <;>
        simp [priceCond, fields_lookup_assign]
    | some v =>
      obtain ⟨k, hk⟩ := hV v h2
      simp only [hh, hk, Option.map_some', Option.bind_eq_bind, Option.some_bind,
        Option.pure_def]
      refine ⟨_, rfl, ?_⟩
      cases given q.category <;> cases given q.minPrice <;> cases given q.maxPrice <;>
        simp [priceCond, fields_lookup_assign]

/-- C9: with `minPrice=10` and `maxPrice=100` the filter keeps only the upper bound (the
second assignment to `inventories.price` overwrites the first), and a product whose only
inventory costs 5 passes the `$match` stage. -/
theorem C9_both_bounds_keep_only_max :
    (publicFilter (fun s => some s) decimalNumber bothBounds).map priceCond
        = some (some (Cond.lte (some 100))) ∧
      (publicFilter (fun s => some s) decimalNumber bothBounds).map
        (fun f => matchFilter substringRegex f cheapSoap) = some true :=
  ⟨rfl, rfl⟩

/-! ## Single-product fetches -/

theorem runStage_nil (stage : Obj → Except AggError (List Obj)) :
    runStage stage [] = .ok [] := rfl

theorem runStages_nil (later : List (Obj → Except AggError (List Obj))) :
    runStages later [] = .ok [] := by
  induction later with
  | nil => rfl
  | cons st rest ih => simp only [runStages, runStage_nil, ih]

theorem matchId_of_absent (products : List Obj) (oid : String)
    (h : ∀ p ∈ products, Obj.get p "_id" ≠ .oid oid) : matchId oid products = [] := by
  unfold matchId
  rw [List.filter_eq_nil_iff]
  intro p hp hb
  exact h p hp ((beq_oid_iff _ _).1 hb)

theorem findById_of_absent (products : List Obj) (oid : String)
    (h : ∀ p ∈ products, Obj.get p "_id" ≠ .oid oid) : findById products oid = Val.null := by
  unfold findById
  have : products.find? (fun d => Val.beq (Obj.get d "_id") (.oid oid)) = none := by
    rw [List.find?_eq_none]
    intro p hp hb
    exact h p hp ((beq_oid_iff _ _).1 hb)
  rw [this]

/-- C5: for a well-formed id whose aggregation runs, `GET /products/customer/:id` answers
status 200 with the record as `product` exactly when the aggregation yields one record,
and answers status 404 without a product when it yields none or several. -/
theorem C5_customer_detail_status (mkId : String → Option String) (products : List Obj)
    (later : List (Obj → Except AggError (List Obj))) (id oid : String) (found : List Obj)
    (hId : mkId id = some oid) (hP : customerPipeline products later oid = .ok found) :
    (∀ r, customerDetail mkId products later id = [("status", .num 200), ("product", .obj r)]
        ↔ found = [r]) ∧
      (Obj.get (customerDetail mkId products later id) "status" = .num 200
        ↔ found.length = 1) ∧
      (found.length ≠ 1 → customerDetail mkId products later id = [("status", .num 404)]) := by
  unfold customerDetail
  simp only [hId, hP]
  match found with
  | [] =>
    refine ⟨?_, ?_, ?_⟩
    · intro r; simp [statusOnly]
    · simp [statusOnly, Obj.get, List.lookup]
    · intro _; rfl
  | [x] =>
    refine ⟨?_, ?_, ?_⟩
    · intro r
      simp only [List.length_singleton, beq_self_eq_true, if_true, List.head?_cons,
        Option.map_some', Option.getD_some]
      constructor
      · intro h
        injection h with _ h2
        injection h2 with h3 _
        injection h3 with _ h4
        injection h4 with h5
        rw [h5]
      · intro h
        injection h with h1 _
        rw [h1]
    · simp [Obj.get, List.lookup]
    · intro h; exact absurd rfl h
  | x :: y :: rest =>
    refine ⟨?_, ?_, ?_⟩
    · intro r; simp [statusOnly]
    · simp [statusOnly, Obj.get, List.lookup]
    · intro _
      simp [statusOnly]

theorem C5_customer_detail_status_witness :
    customerDetail lengthChecked [storedSoap] (vendorStages [storedShop])
        "64b000000000000000000003"
      = [("status", .num 200),
         ("product", .obj [("_id", .oid "64b000000000000000000003"), ("name", .str "Soap"),
           ("vendor", .obj storedShop)])] ∧
      customerDetail lengthChecked [storedSoap] (vendorStages [])
        "64b000000000000000000003" = [("status", .num 404)] :=
  ⟨((C5_customer_detail_status lengthChecked [storedSoap] (vendorStages [storedShop])
      "64b000000000000000000003" "64b000000000000000000003" _ rfl rfl).1 _).2 rfl,
    (C5_customer_detail_status lengthChecked [storedSoap] (vendorStages [])
      "64b000000000000000000003" "64b000000000000000000003" [] rfl rfl).2.2 (by decide)⟩

/-- C6: for a well-formed id that names no stored product, `GET /products/customer/:id`
answers status 404 while `GET /products/vendor/:id` answers status 200 with a `null`
product, so the two responses differ. -/
theorem C6_lookup_responses_differ (mkId : String → Option String) (products : List Obj)
    (later : List (Obj → Except AggError (List Obj))) (id oid : String)
    (hId : mkId id = some oid) (hNo : ∀ p ∈ products, Obj.get p "_id" ≠ .oid oid) :
    customerDetail mkId products later id = [("status", .num 404)] ∧
      vendorDetail mkId products id = [("status", .num 200), ("product", Val.null)] ∧
      customerDetail mkId products later id ≠ vendorDetail mkId products id := by
  have h1 : customerDetail mkId products later id = [("status", .num 404)] := by
    unfold customerDetail customerPipeline
    simp only [hId, matchId_of_absent products oid hNo, runStages_nil]
    rfl
  have h2 : vendorDetail mkId products id = [("status", .num 200), ("product", Val.null)] := by
    unfold vendorDetail
    simp only [hId, findById_of_absent products oid hNo]
  refine ⟨h1, h2, ?_⟩
  rw [h1, h2]
  intro h
  injection h with _ h3
  cases h3

theorem C6_lookup_responses_differ_witness :
    customerDetail lengthChecked [storedSoap] (vendorStages [storedShop])
        "64b0000000000000000000ff"
      ≠ vendorDetail lengthChecked [storedSoap] "64b0000000000000000000ff" :=
  (C6_lookup_responses_differ lengthChecked [storedSoap] (vendorStages [storedShop])
    "64b0000000000000000000ff" "64b0000000000000000000ff" rfl
    (by
      intro p hp
      rw [List.mem_singleton] at hp
      subst hp
      intro h
      injection h with h1
      exact absurd h1 (by decide))).2.2

/-! ## Write handlers -/

theorem get_assignIf (p b : Obj) (k j : String) :
    Obj.get (assignIf p b k) j =
      if j = k ∧ (Obj.get b k).truthy = true then Obj.get b k else Obj.get p j := by
  unfold assignIf
  cases ht : (Obj.get b k).truthy
  · simp
  · simp only [if_true, get_set, and_true]

/-- C3 (as amended): when `PUT /products/:id` saves (the `deliveryTypes` field, if truthy,
parses as JSON), each scalar field takes the request's value when that value is truthy and
keeps its stored value when it is absent or falsy (`undefined`, `null`, the empty
string, 0, `false`). -/
theorem C3_scalar_update (jsonParse : Val → Option Val) (product body : Obj)
    (file : Option String)
    (hdt : (Obj.get body "deliveryTypes").truthy = true →
      ∃ v, jsonParse (Obj.get body "deliveryTypes") = some v) :
    ∃ saved, putProduct jsonParse (some product) body file
        = ⟨some saved, some (statusOnly 200)⟩ ∧
      ∀ k ∈ scalarFields,
        Obj.get saved k =
          if (Obj.get body k).truthy then Obj.get body k else Obj.get product k := by
  unfold putProduct
  cases ht : (Obj.get body "deliveryTypes").truthy
  · cases file <;>
    · refine ⟨_, rfl, ?_⟩
      intro k hk
      simp only [scalarFields, List.mem_cons, List.mem_singleton, List.not_mem_nil,
        or_false] at hk
      rcases hk with h | h | h | h | h | h | h | h <;> subst h <;>
        simp [get_assignIf, get_set]
  · obtain ⟨v, hv⟩ := hdt ht
    simp only [hv, if_true, Option.map_some']
    cases file <;>
    · refine ⟨_, rfl, ?_⟩
      intro k hk
      simp only [scalarFields, List.mem_cons, List.mem_singleton, List.not_mem_nil,
        or_false] at hk
      rcases hk with h | h | h | h | h | h | h | h <;> subst h <;>
        simp [get_assignIf, get_set]

theorem C3_scalar_update_witness :
    ∃ saved, putProduct parseNothing (some productA) recategorise none
        = ⟨some saved, some (statusOnly 200)⟩ ∧
      Obj.get saved "name" = .str "A" ∧ Obj.get saved "category" = .str "B" := by
  obtain ⟨saved, hs, h⟩ := C3_scalar_update parseNothing productA recategorise none
    (fun h => absurd h (by decide))
  exact ⟨saved, hs, h "name" (by decide), h "category" (by decide)⟩

/-- C3 (as stated) fails: the request `{ name: "" }` has `name` present, yet the product
named "A" is saved with the name "A". -/
theorem C3_present_empty_name_kept :
    List.lookup "name" renameToEmpty = some (.str "") ∧
      (putProduct parseNothing (some productA) renameToEmpty none).saved.map
        (fun p => Obj.get p "name") = some (.str "A") :=
  ⟨rfl, rfl⟩

theorem entryId_of_oid (numberText : Int → String) (fs : Obj) (h : String)
    (hid : Obj.get fs "_id" = .oid h) : entryId numberText (.obj fs) = some h := by
  simp only [entryId, hid, Val.toStringJs]

theorem hasId_of_oid (numberText : Int → String) (id : Val) (fs : Obj) (h : String)
    (hid : Obj.get fs "_id" = .oid h) :
    hasId numberText id (.obj fs) = some (Val.beq (.str h) id) := by
  simp only [hasId, entryId_of_oid numberText fs h hid, Option.map_some']

theorem findM_none_of_all (p : Val → Option Bool) (l : List Val)
    (h : ∀ e ∈ l, p e = some false) : findM p l = some none := by
  induction l with
  | nil => rfl
  | cons x t ih =>
    simp only [findM, h x (List.mem_cons_self _ _)]
    exact ih (fun e he => h e (List.mem_cons_of_mem _ he))

theorem findM_some_of_exists (p : Val → Option Bool) (l : List Val)
    (hall : ∀ e ∈ l, ∃ b, p e = some b) (hex : ∃ e ∈ l, p e = some true) :
    ∃ x, x ∈ l ∧ p x = some true ∧ findM p l = some (some x) := by
  induction l with
  | nil => obtain ⟨e, he, _⟩ := hex; cases he
  | cons x t ih =>
    obtain ⟨b, hb⟩ := hall x (List.mem_cons_self _ _)
    cases b with
    | true => exact ⟨x, List.mem_cons_self _ _, hb, by simp only [findM, hb]⟩
    | false =>
      have hex2 : ∃ e ∈ t, p e = some true := by
        obtain ⟨e, he, hp⟩ := hex
        rcases List.mem_cons.1 he with h | h
        · subst h; rw [hb] at hp; cases hp
        · exact ⟨e, h, hp⟩
      obtain ⟨y, hy, hpy, hf⟩ := ih (fun e he => hall e (List.mem_cons_of_mem _ he)) hex2
      exact ⟨y, List.mem_cons_of_mem _ hy, hpy, by simp only [findM, hb, hf]⟩

theorem mapThrowing_merge (numberText : Int → String) (id : Val) (body : Obj) (l : List Val)
    (h : ∀ e ∈ l, ∃ b, hasId numberText id e = some b) :
    ∃ out, mapThrowing (mergeIfId numberText id body) l = some out ∧
      out.length = l.length ∧
      ∀ (i : Nat) (e : Val), l[i]? = some e →
        (hasId numberText id e = some false → out[i]? = some e) ∧
        (hasId numberText id e = some true →
          out[i]? = some (.obj (Obj.merge (spreadOf e) body))) := by
  induction l with
  | nil => exact ⟨[], rfl, rfl, fun i e he => by simp at he⟩
  | cons x t ih =>
    obtain ⟨out, ho, hl, hi⟩ := ih (fun e he => h e (List.mem_cons_of_mem _ he))
    obtain ⟨b, hb⟩ := h x (List.mem_cons_self _ _)
    cases b with
    | true =>
      refine ⟨.obj (Obj.merge (spreadOf x) body) :: out, ?_, by simp [hl], ?_⟩
      · simp only [mapThrowing, mergeIfId, hb, ho]
      · intro i e he
        cases i with
        | zero =>
          simp only [List.getElem?_cons_zero, Option.some.injEq] at he
          subst he
          exact ⟨fun hf => (by rw [hb] at hf; cases hf), fun _ => List.getElem?_cons_zero⟩
        | succ n =>
          simp only [List.getElem?_cons_succ] at he ⊢
          exact hi n e he
    | false =>
      refine ⟨x :: out, ?_, by simp [hl], ?_⟩
      · simp only [mapThrowing, mergeIfId, hb, ho]
      · intro i e he
        cases i with
        | zero =>
          simp only [List.getElem?_cons_zero, Option.some.injEq] at he
          subst he
          exact ⟨fun _ => List.getElem?_cons_zero, fun hf => (by rw [hb] at hf; cases hf)⟩
        | succ n =>
          simp only [List.getElem?_cons_succ] at he ⊢
          exact hi n e he

theorem merge_by_id (numberText : Int → String) (id : Val) (body : Obj) (l : List Val)
    (hIds : ∀ e ∈ l, ∃ fs h, e = .obj fs ∧ Obj.get fs "_id" = .oid h) :
    ((∀ fs h, .obj fs ∈ l → Obj.get fs "_id" = .oid h → id ≠ .str h) →
        findM (hasId numberText id) l = some none) ∧
      ((∃ fs h, .obj fs ∈ l ∧ Obj.get fs "_id" = .oid h ∧ id = .str h) →
        ∃ x out, findM (hasId numberText id) l = some (some x) ∧ x.truthy = true ∧
          mapThrowing (mergeIfId numberText id body) l = some out ∧
          out.length = l.length ∧
          ∀ (i : Nat) (fs : Obj) (h : String), l[i]? = some (.obj fs) →
            Obj.get fs "_id" = .oid h →
            (id ≠ .str h → out[i]? = some (.obj fs)) ∧
            (id = .str h → out[i]? = some (.obj (Obj.merge fs body)))) := by
  have hall : ∀ e ∈ l, ∃ b, hasId numberText id e = some b := by
    intro e he
    obtain ⟨fs, h, rfl, hid⟩ := hIds e he
    exact ⟨_, hasId_of_oid numberText id fs h hid⟩
  constructor
  · intro hno
    apply findM_none_of_all
    intro e he
    obtain ⟨fs, h, rfl, hid⟩ := hIds e he
    rw [hasId_of_oid numberText id fs h hid]
    cases hb : Val.beq (.str h) id
    · rfl
    · exact absurd ((beq_str_iff h id).1 hb) (hno fs h he hid)
  · rintro ⟨fs, h, hmem, hid, heq⟩
    have hex : ∃ e ∈ l, hasId numberText id e = some true :=
      ⟨_, hmem, by rw [hasId_of_oid numberText id fs h hid, (beq_str_iff h id).2 heq]⟩
    obtain ⟨x, hx, _, hf⟩ := findM_some_of_exists (hasId numberText id) l hall hex
    obtain ⟨fx, _, rfl, _⟩ := hIds x hx
    obtain ⟨out, ho, hl, hi⟩ := mapThrowing_merge numberText id body l hall
    refine ⟨_, out, hf, rfl, ho, hl, ?_⟩
    intro i fs2 h2 hi2 hid2
    obtain ⟨hA, hB⟩ := hi i _ hi2
    rw [hasId_of_oid numberText id fs2 h2 hid2] at hA hB
    constructor
    · intro hne
      apply hA
      cases hb : Val.beq (.str h2) id
      · rfl
      · exact absurd ((beq_str_iff h2 id).1 hb) hne
    · intro he2
      exact hB (by rw [(beq_str_iff h2 id).2 he2])

theorem embeddedEvents_of (community : Obj) (events : List Val)
    (hE : Obj.get community "events" = .arr events ∨
      (events = [] ∧ (Obj.get community "events" = Val.null ∨
        Obj.get community "events" = Val.undefined))) :
    embeddedEvents community = some events := by
  unfold embeddedEvents
  rcases hE with h | ⟨rfl, h | h⟩ <;> rw [h]

/-- C2: for an existing product whose specifications are objects identified by an ObjectId,
`POST /products/:id/specification` answers status 200 and leaves every other field of the
product as it was; when no entry has the id `specId` (also when `specId` is absent) it
saves the old list with the body appended as its last entry, and otherwise it saves a
list of the same length and order in which every entry with another id is unchanged and
every entry with that id is the shallow merge of the old entry with the body: the fields
of the body override, the other fields of the old entry survive. -/
theorem C2_upsert_specification (numberText : Int → String) (product : Obj)
    (specs : List Val) (spec : Obj) (specId : Val)
    (hS : Obj.get product "specifications" = .arr specs)
    (hIds : ∀ e ∈ specs, ∃ fs h, e = .obj fs ∧ Obj.get fs "_id" = .oid h) :
    ∃ saved list, postCategory numberText (some product) "specification" spec specId
        = ⟨some saved, some [("status", .num 200)]⟩ ∧
      Obj.get saved "specifications" = .arr list ∧
      (∀ k, k ≠ "specifications" → Obj.get saved k = Obj.get product k) ∧
      ((∀ fs h, .obj fs ∈ specs → Obj.get fs "_id" = .oid h → specId ≠ .str h) →
        list = specs ++ [.obj spec]) ∧
      ((∃ fs h, .obj fs ∈ specs ∧ Obj.get fs "_id" = .oid h ∧ specId = .str h) →
        list.length = specs.length ∧
        ∀ (i : Nat) (fs : Obj) (h : String), specs[i]? = some (.obj fs) →
          Obj.get fs "_id" = .oid h →
          (specId ≠ .str h → list[i]? = some (.obj fs)) ∧
          (specId = .str h → ∃ merged : Obj, list[i]? = some (.obj merged) ∧
            ∀ k, merged.lookup k = (spec.lookup k).orElse (fun _ => fs.lookup k))) := by
  obtain ⟨hnone, hsome⟩ := merge_by_id numberText specId spec specs hIds
  by_cases hex : ∃ fs h, .obj fs ∈ specs ∧ Obj.get fs "_id" = .oid h ∧ specId = .str h
  · obtain ⟨x, out, hf, htx, ho, hl, hi⟩ := hsome hex
    refine ⟨Obj.set product "specifications" (.arr out), out, ?_, ?_, ?_, ?_, ?_⟩
    · simp [postCategory, hS, upsertSpecification, hf, htx, ho, statusOnly]
    · rw [get_set]; rfl
    · intro k hk
      rw [get_set, if_neg hk]
    · intro hno
      obtain ⟨fs, h, hm, hid, heq⟩ := hex
      exact absurd heq (hno fs h hm hid)
    · intro _
      refine ⟨hl, ?_⟩
      intro i fs h hi1 hid
      obtain ⟨hA, hB⟩ := hi i fs h hi1 hid
      exact ⟨hA, fun he => ⟨_, hB he, fun k => lookup_merge _ _ k⟩⟩
  · have hno : ∀ fs h, .obj fs ∈ specs → Obj.get fs "_id" = .oid h → specId ≠ .str h := by
      intro fs h hm hid heq
      exact hex ⟨fs, h, hm, hid, heq⟩
    have hf := hnone hno
    refine ⟨Obj.set product "specifications" (.arr (specs ++ [.obj spec])), _, ?_, ?_, ?_,
      fun _ => rfl, fun h => absurd h hex⟩
    · simp [postCategory, hS, upsertSpecification, hf, statusOnly]
    · rw [get_set]; rfl
    · intro k hk
      rw [get_set, if_neg hk]

theorem C2_upsert_specification_witness :
    (∃ saved, postCategory decimalText (some productWithSku) "specification"
        [("value", .str "2")] Val.undefined = ⟨some saved, some [("status", .num 200)]⟩ ∧
      Obj.get saved "specifications" =
        .arr [.obj [("_id", .oid "64b0000000000000000000c1"), ("name", .str "sku"),
          ("value", .str "1")], .obj [("value", .str "2")]]) ∧
      ∃ saved merged, postCategory decimalText (some productWithSku) "specification"
          [("value", .str "2")] (.str "64b0000000000000000000c1")
            = ⟨some saved, some [("status", .num 200)]⟩ ∧
        Obj.get saved "specifications" = .arr [.obj merged] ∧
        Obj.get saved "name" = .str "A" ∧
        merged.lookup "_id" = some (.oid "64b0000000000000000000c1") ∧
        merged.lookup "name" = some (.str "sku") ∧
        merged.lookup "value" = some (.str "2") := by
  have hIds : ∀ e ∈ [Val.obj [("_id", .oid "64b0000000000000000000c1"),
      ("name", .str "sku"), ("value", .str "1")]],
      ∃ fs h, e = .obj fs ∧ Obj.get fs "_id" = .oid h := by
    intro e he
    rw [List.mem_singleton] at he
    exact ⟨_, _, he, rfl⟩
  constructor
  · obtain ⟨saved, list, h1, h2, _, h4, _⟩ := C2_upsert_specification decimalText
      productWithSku _ [("value", .str "2")] Val.undefined rfl hIds
    have hl := h4 (fun _ _ _ _ h => by cases h)
    rw [hl] at h2
    exact ⟨saved, h1, h2⟩
  · obtain ⟨saved, list, h1, h2, h3, _, h5⟩ := C2_upsert_specification decimalText
      productWithSku _ [("value", .str "2")] (.str "64b0000000000000000000c1") rfl hIds
    obtain ⟨hlen, hi⟩ := h5 ⟨_, _, List.mem_singleton.2 rfl, rfl, rfl⟩
    obtain ⟨merged, hm, hk⟩ := (hi 0 _ _ rfl rfl).2 rfl
    have hlist : list = [.obj merged] := by
      match list, hlen, hm with
      | [x], _, hm =>
        simp only [List.getElem?_cons_zero, Option.some.injEq] at hm
        rw [hm]
    rw [hlist] at h2
    exact ⟨saved, merged, h1, h2, h3 "name" (by decide), hk "_id", hk "name", hk "value"⟩

/-- C7: for a community whose embedded events are objects identified by an ObjectId (or
that has no events list), `PUT /communities/event/:id` answers status 404 and saves
nothing when no event has the id; otherwise it answers status 200, leaves every other
field of the community as it was, and saves a list of the same length and order in which
every event with another id is unchanged and every event with that id is the shallow
merge of the old event with the body: the fields of the body override, the other fields
of the old event survive. -/
theorem C7_merge_event (numberText : Int → String) (community : Obj) (events : List Val)
    (id : String) (body : Obj)
    (hE : Obj.get community "events" = .arr events ∨
      (events = [] ∧ (Obj.get community "events" = Val.null ∨
        Obj.get community "events" = Val.undefined)))
    (hIds : ∀ e ∈ events, ∃ fs h, e = .obj fs ∧ Obj.get fs "_id" = .oid h) :
    ((∀ fs h, .obj fs ∈ events → Obj.get fs "_id" = .oid h → h ≠ id) →
        putEventById numberText community id body
          = ⟨none, some [("status", .num 404)]⟩) ∧
      ((∃ fs, .obj fs ∈ events ∧ Obj.get fs "_id" = .oid id) →
        ∃ saved list, putEventById numberText community id body
            = ⟨some saved, some [("status", .num 200)]⟩ ∧
          Obj.get saved "events" = .arr list ∧
          (∀ k, k ≠ "events" → Obj.get saved k = Obj.get community k) ∧
          list.length = events.length ∧
          ∀ (i : Nat) (fs : Obj) (h : String), events[i]? = some (.obj fs) →
            Obj.get fs "_id" = .oid h →
            (h ≠ id → list[i]? = some (.obj fs)) ∧
            (h = id → ∃ merged : Obj, list[i]? = some (.obj merged) ∧
              ∀ k, merged.lookup k = (body.lookup k).orElse (fun _ => fs.lookup k))) := by
  have hEv := embeddedEvents_of community events hE
  obtain ⟨hnone, hsome⟩ := merge_by_id numberText (.str id) body events hIds
  constructor
  · intro hno
    have hf := hnone (fun fs h hm hid heq => hno fs h hm hid (by
      injection heq with h1
      exact h1.symm))
    simp [putEventById, hEv, hf, statusOnly]
  · rintro ⟨fs, hm, hid⟩
    obtain ⟨x, out, hf, htx, ho, hl, hi⟩ := hsome ⟨fs, id, hm, hid, rfl⟩
    refine ⟨Obj.set community "events" (.arr out), out, ?_, ?_, ?_, hl, ?_⟩
    · simp [putEventById, hEv, hf, htx, ho, statusOnly]
    · rw [get_set]; rfl
    · intro k hk
      rw [get_set, if_neg hk]
    · intro i fs2 h2 hi2 hid2
      obtain ⟨hA, hB⟩ := hi i fs2 h2 hi2 hid2
      constructor
      · intro hne
        apply hA
        intro heq
        injection heq with h1
        exact hne h1.symm
      · intro heq
        subst heq
        exact ⟨_, hB rfl, fun k => lookup_merge _ _ k⟩

theorem C7_merge_event_witness :
    putEventById decimalText communityWithEvents "64b0000000000000000000ee"
        [("status", .str "Closed")] = ⟨none, some [("status", .num 404)]⟩ ∧
      ∃ saved merged, putEventById decimalText communityWithEvents
          "64b0000000000000000000e2" [("status", .str "Closed")]
            = ⟨some saved, some [("status", .num 200)]⟩ ∧
        Obj.get saved "events" =
          .arr [.obj [("_id", .oid "64b0000000000000000000e1"), ("name", .str "Fair"),
            ("status", .str "Active")], .obj merged] ∧
        Obj.get saved "name" = .str "Field" ∧
        merged.lookup "_id" = some (.oid "64b0000000000000000000e2") ∧
        merged.lookup "name" = some (.str "Market") ∧
        merged.lookup "status" = some (.str "Closed") := by
  have hIds : ∀ e ∈ [Val.obj [("_id", .oid "64b0000000000000000000e1"),
        ("name", .str "Fair"), ("status", .str "Active")],
      Val.obj [("_id", .oid "64b0000000000000000000e2"), ("name", .str "Market")]],
      ∃ fs h, e = .obj fs ∧ Obj.get fs "_id" = .oid h := by
    intro e he
    simp only [List.mem_cons, List.mem_singleton, List.not_mem_nil, or_false] at he
    rcases he with h | h <;> exact ⟨_, _, h, rfl⟩
  constructor
  · refine (C7_merge_event decimalText communityWithEvents _ "64b0000000000000000000ee"
      [("status", .str "Closed")] (Or.inl rfl) hIds).1 ?_
    intro fs h hm hid
    simp only [List.mem_cons, List.mem_singleton, List.not_mem_nil, or_false,
      Val.obj.injEq] at hm
    rcases hm with h1 | h1 <;> subst h1 <;> injection hid with h2 <;> subst h2 <;> decide
  · obtain ⟨saved, list, h1, h2, h3, hlen, hi⟩ := (C7_merge_event decimalText
      communityWithEvents _ "64b0000000000000000000e2" [("status", .str "Closed")]
      (Or.inl rfl) hIds).2 ⟨_, List.mem_cons_of_mem _ (List.mem_singleton.2 rfl), rfl⟩
    have h0 := (hi 0 _ _ rfl rfl).1 (by decide)
    obtain ⟨merged, hm, hk⟩ := (hi 1 _ _ rfl rfl).2 rfl
    have hlist : list = [.obj [("_id", .oid "64b0000000000000000000e1"),
        ("name", .str "Fair"), ("status", .str "Active")], .obj merged] := by
      match list, hlen, h0, hm with
      | [x, y], _, h0, hm =>
        simp only [List.getElem?_cons_zero, List.getElem?_cons_succ,
          Option.some.injEq] at h0 hm
        rw [h0, hm]
    rw [hlist] at h2
    exact ⟨saved, merged, h1, h2, h3 "name" (by decide), hk "_id", hk "name", hk "status"⟩

/-- C8: `PUT /communities/event` answers status 200, leaves every other field of the
community as it was, and saves the old events list (the empty list when the community had
none) followed by exactly one new event; the new event carries every field of the body,
has status "Active" when the body gives no status, and has no other field. -/
theorem C8_append_event (community body : Obj) (events : List Val)
    (hE : Obj.get community "events" = .arr events ∨
      (events = [] ∧ (Obj.get community "events" = Val.null ∨
        Obj.get community "events" = Val.undefined))) :
    ∃ (saved event : Obj), putEvent community body
        = ⟨some saved, some [("status", .num 200)]⟩ ∧
      Obj.get saved "events" = .arr (events ++ [.obj event]) ∧
      (∀ k, k ≠ "events" → Obj.get saved k = Obj.get community k) ∧
      (∀ k v, body.lookup k = some v → event.lookup k = some v) ∧
      (body.lookup "status" = none → event.lookup "status" = some (.str "Active")) ∧
      (∀ k, k ≠ "status" → body.lookup k = none → event.lookup k = none) := by
  have hEv := embeddedEvents_of community events hE
  refine ⟨Obj.set community "events"
      (.arr (events ++ [.obj (Obj.merge [("status", .str "Active")] body)])),
    Obj.merge [("status", .str "Active")] body, ?_, ?_, ?_, ?_, ?_, ?_⟩
  · simp only [putEvent, hEv, statusOnly]
  · rw [get_set]; rfl
  · intro k hk
    rw [get_set, if_neg hk]
  · intro k v h
    rw [lookup_merge, h]
    rfl
  · intro h
    rw [lookup_merge, h]
    rfl
  · intro k hk h
    rw [lookup_merge, h]
    have : (k == "status") = false := by simpa using hk
    simp [List.lookup, this]

theorem C8_append_event_witness :
    ∃ (saved event : Obj), putEvent communityWithEvents [("name", .str "Picnic")]
        = ⟨some saved, some [("status", .num 200)]⟩ ∧
      Obj.get saved "events" =
        .arr [.obj [("_id", .oid "64b0000000000000000000e1"), ("name", .str "Fair"),
            ("status", .str "Active")],
          .obj [("_id", .oid "64b0000000000000000000e2"), ("name", .str "Market")],
          .obj event] ∧
      Obj.get saved "name" = .str "Field" ∧
      event.lookup "name" = some (.str "Picnic") ∧
      event.lookup "status" = some (.str "Active") := by
  obtain ⟨saved, event, h1, h2, h3, h4, h5, _⟩ := C8_append_event communityWithEvents
    [("name", .str "Picnic")] _ (Or.inl rfl)
  exact ⟨saved, event, h1, h2, h3 "name" (by decide), h4 "name" _ rfl, h5 rfl⟩

/-! ## The vendor product listing -/

theorem get_objLiteral (fs : Obj) (k : String) (h : (fs.map Prod.fst).Nodup) :
    Obj.get (objLiteral fs) k = Obj.get fs k := by
  unfold Obj.get
  rw [lookup_objLiteral fs k h]
  cases hl : fs.lookup k with
  | none => rfl
  | some v => cases v <;> rfl

theorem namedSku_eq (e : Val) : Val.beq (Val.field e "name") (.str "sku") = namedSku e := by
  unfold namedSku
  cases Val.field e "name" <;> simp only [Val.beq]

theorem specification_of (v : Val) (specs : List Val) (h : listOrNone v = some specs) :
    ∃ spec, (exprFilterSku v >>= exprFirst) = .ok spec ∧
      Val.field spec "value" = Val.field (firstSku specs) "value" := by
  have hf : (fun e => Val.beq (Val.field e "name") (.str "sku")) = namedSku :=
    funext namedSku_eq
  cases v with
  | arr items =>
    simp only [listOrNone, Option.some.injEq] at h
    subst h
    refine ⟨firstSku items, ?_, rfl⟩
    simp only [exprFilterSku, hf, bind, Except.bind, exprFirst_arr, firstOf_filter, firstSku]
  | null =>
    simp only [listOrNone, Option.some.injEq] at h
    subst h
    exact ⟨Val.null, rfl, rfl⟩
  | undefined =>
    simp only [listOrNone, Option.some.injEq] at h
    subst h
    exact ⟨Val.null, rfl, rfl⟩
  | bool b => cases h
  | num n => cases h
  | str s => cases h
  | oid o => cases h
  | obj fs => cases h

theorem vendorRoot_get_sku (doc : Obj) :
    Obj.get (vendorRootStage doc) "sku"
      = orDefault (Val.field (Obj.get doc "specification") "value") (.str "") := by
  unfold vendorRootStage
  exact get_record _ _ "sku" (.str "") _ (by simp) rfl rfl

theorem vendorRecord_eq (inventories : List Obj) (product : Obj) (specs : List Val)
    (hS : listOrNone (Obj.get product "specifications") = some specs) :
    ∃ r, vendorRecord inventories product = .ok r ∧
      Obj.get r "sku" = orDefault (Val.field (firstSku specs) "value") (.str "") := by
  obtain ⟨spec, h1, h2⟩ := specification_of _ specs hS
  simp only [bind, Except.bind] at h1
  cases hk : exprFilterSku (Obj.get product "specifications") with
  | error e => rw [hk] at h1; cases h1
  | ok kept =>
    rw [hk] at h1
    simp only at h1
    simp only [vendorRecord, projectStage, hk, h1, inventoryStage, lookupStage, get_set,
      if_true, exprFilterImage, exprFirst_arr, bind, Except.bind, pure, Except.pure]
    refine ⟨_, rfl, ?_⟩
    rw [vendorRoot_get_sku, ← h2]
    have hg : Obj.get (objLiteral
        [("_id", Obj.get product "_id"), ("name", Obj.get product "name"),
         ("status", Obj.get product "status"), ("specification", spec),
         ("createdAt", Obj.get product "createdAt")]) "specification" = spec := by
      rw [get_objLiteral _ _ (by simp)]
      rfl
    simp [get_addField, get_set, hg]

theorem matchField_text (rx : String → String → String → Bool) (doc : Obj)
    (k pattern options s : String) (h : Obj.get doc k = .str s) :
    matchField rx doc [k] (Cond.regex pattern options) = rx pattern options s := by
  have hl := lookup_of_get doc k (.str s) h rfl
  simp [matchField, valuesAt, pathStep, hl, leafCandidates, condHolds]

/-- C11 (as amended): for every product whose specifications are a list (or are absent)
and every sku query string, the output record has `sku` equal to the `value` of the first
specification entry named "sku" (the default empty string when there is no such entry or
it has no value), and a record whose `sku` is a string passes the sku filter exactly when
the query string, taken as a regular expression with option `i`, matches that `sku`. -/
theorem C11_vendor_sku (rx : String → String → String → Bool) (inventories : List Obj)
    (product : Obj) (specs : List Val) (sku : Option String)
    (hS : listOrNone (Obj.get product "specifications") = some specs) :
    ∃ r, vendorRecord inventories product = .ok r ∧
      Obj.get r "sku" = orDefault (Val.field (firstSku specs) "value") (.str "") ∧
      ∀ s, Obj.get r "sku" = .str s →
        (skuMatches rx sku r = true ↔ rx (sku.getD "") "i" s = true) := by
  obtain ⟨r, hr, hs⟩ := vendorRecord_eq inventories product specs hS
  refine ⟨r, hr, hs, ?_⟩
  intro s h
  unfold skuMatches
  rw [matchField_text rx r "sku" _ _ s h, orEmpty_eq_getD]

theorem C11_vendor_sku_witness :
    ∃ r, vendorRecord [] productWithSkus = .ok r ∧ Obj.get r "sku" = .str "A1" ∧
      (skuMatches substringRegex (some "a") r = true ↔
        substringRegex "a" "i" "A1" = true) := by
  obtain ⟨r, hr, hs, hm⟩ := C11_vendor_sku substringRegex [] productWithSkus
    [.obj [("name", .str "size"), ("value", .str "L")],
     .obj [("name", .str "sku"), ("value", .str "A1")],
     .obj [("name", .str "sku"), ("value", .str "B2")]] (some "a") rfl
  exact ⟨r, hr, hs, hm "A1" hs⟩

/-- C11 (as stated) fails: the sku query `.` is not a substring of the derived sku "A1",
yet the record is kept, because the query string is used as a regular expression. -/
theorem C11_sku_query_is_a_pattern :
    (vendorRecord [] productWithSkus).map
        (fun r => (Obj.get r "sku", skuMatches wildcardRegex (some ".") r))
        = .ok (.str "A1", true) ∧
      substringIgnoringCase "." "A1" = false :=
  ⟨rfl, rfl⟩

/-! ## Sub-documents of a product -/

/-- C12: for every existing product and every list sent to
`PUT /products/:id/specification`, the handler answers status 200 and saves the product
with `specifications` equal to the request's list, whatever the prior entries were, and
with every other field as it was. -/
theorem C12_replace_specifications (product : Obj) (specifications : List Val) :
    ∃ saved, putCategory (some product) "specification" (.arr specifications)
        = ⟨some saved, some (statusOnly 200)⟩ ∧
      Obj.get saved "specifications" = .arr specifications ∧
      ∀ k, k ≠ "specifications" → Obj.get saved k = Obj.get product k := by
  refine ⟨Obj.set product "specifications" (.arr specifications), rfl, ?_, ?_⟩
  · rw [get_set]; rfl
  · intro k hk
    rw [get_set, if_neg hk]

theorem orElse_present (v d : Val) (hd : d.present = true) : (orElse v d).present = true := by
  unfold orElse
  cases ht : v.truthy
  · simpa using hd
  · cases v <;> first | rfl | cases ht

theorem getCategory_payloads (numberText : Int → String) (product : Obj) :
    getCategory numberText (some product) "style" none
        = [("status", .num 200), ("styles", orElse (Obj.get product "styles") (.arr []))] ∧
      getCategory numberText (some product) "specification" none
        = [("status", .num 200),
           ("specifications", orElse (Obj.get product "specifications") (.arr []))] ∧
      getCategory numberText (some product) "customization" none
        = [("status", .num 200),
           ("customization", orElse (Obj.get product "customization") (.obj []))] := by
  have h1 := orElse_present (Obj.get product "styles") (.arr []) rfl
  have h2 := orElse_present (Obj.get product "specifications") (.arr []) rfl
  have h3 := orElse_present (Obj.get product "customization") (.obj []) rfl
  refine ⟨?_, ?_, ?_⟩
  · simp [getCategory, given, jsonBody, List.filter_cons]
    rw [if_pos (show (Val.num 200).present = true from rfl), if_pos h1]
  · simp [getCategory, jsonBody, List.filter_cons]
    rw [if_pos (show (Val.num 200).present = true from rfl), if_pos h2]
  · simp [getCategory, jsonBody, List.filter_cons]
    rw [if_pos (show (Val.num 200).present = true from rfl), if_pos h3]

/-- C13: for the category `subscription` the handler sends the subscription itself as
`status` and no payload field: a product with a weekly subscription gets
`{ status: { frequency: "weekly" } }`, and a product without subscription gets `{}`. -/
theorem C13_subscription_status_is_the_subdocument (numberText : Int → String) :
    getCategory numberText (some productWithPlan) "subscription" none
        = [("status", .obj [("frequency", .str "weekly")])] ∧
      getCategory numberText (some productA) "subscription" none = [] :=
  ⟨rfl, rfl⟩

end VillageFind
